import Mathlib

/-!
Shallow embedding of the Ludo rules engine from
`src/ludo_frontend/src/services/gameEngine.js`, together with proofs that
settle the specification claims about it.

JavaScript numbers are modelled as `Nat` where the source only ever stores
non-negative integers, and as `Int` where `-1` is a sentinel (token
`position` and `homeStretchPos`).  `null`-able dice values are `Option Nat`.
The two nondeterministic calls (`Date.now`/`Math.random` inside
`generateId`, and `Math.random` inside `rollDieValue`) are modelled by
passing their drawn values as explicit arguments (`gid` to
`createLocalGame`, `d` to `rollLocalDice`).
-/

namespace Ludo

/-- Board configuration constant `BOARD_SIZE` (main-track squares). -/
def BOARD_SIZE : Nat := 52

/-- Board configuration constant `TOKENS_PER_PLAYER`. -/
def TOKENS_PER_PLAYER : Nat := 4

/-- Board configuration constant `HOME_STRETCH_LENGTH`. -/
def HOME_STRETCH_LENGTH : Nat := 5

/-- One entry of the `PLAYER_CONFIGS` table. -/
structure PlayerConfig where
  color : String
  name : String
  startPos : Nat
  homeEntryPos : Nat
deriving DecidableEq, Repr

/-- The `PLAYER_CONFIGS` table from the source. -/
def PLAYER_CONFIGS : List PlayerConfig :=
  [⟨"red", "Red", 0, 50⟩,
   ⟨"green", "Green", 13, 11⟩,
   ⟨"yellow", "Yellow", 26, 24⟩,
   ⟨"blue", "Blue", 39, 37⟩]

/-- `SAFE_SQUARES` from the source. -/
def SAFE_SQUARES : List Nat := [0, 8, 13, 21, 26, 34, 39, 47]

/-- The three values of `TOKEN_STATE`. -/
inductive TokenState where
  | base
  | active
  | home
deriving DecidableEq, Repr

/-- A token record. -/
structure Token where
  id : String
  state : TokenState
  position : Int
  homeStretchPos : Int
  stepsFromStart : Nat
deriving DecidableEq, Repr

/-- A player record. -/
structure Player where
  index : Nat
  name : String
  color : String
  startPos : Nat
  homeEntryPos : Nat
  tokens : List Token
  hasFinished : Bool
  finishOrder : Int
deriving DecidableEq, Repr

/-- One record of `moveHistory`. -/
structure MoveRecord where
  playerIndex : Nat
  tokenId : String
  diceValue : Option Nat
deriving DecidableEq, Repr

/-- The root game-state record. -/
structure GameState where
  id : String
  players : List Player
  currentPlayerIndex : Nat
  diceValue : Option Nat
  diceRolled : Bool
  hasExtraTurn : Bool
  consecutiveSixes : Nat
  winner : Option Nat
  gameOver : Bool
  turnPhase : String
  message : String
  moveHistory : List MoveRecord
  finishOrder : List Nat
deriving DecidableEq, Repr

/-- Default used to totalize out-of-range token list accesses. -/
def junkToken : Token := ⟨"", .base, -1, -1, 0⟩

/-- Default used to totalize out-of-range player list accesses: it carries no
tokens, so a lookup through it can never find a token id. -/
def junkPlayer : Player := ⟨0, "", "", 999, 999, [], false, -1⟩

/-- Default used to totalize out-of-range accesses into `PLAYER_CONFIGS`
(the source would crash there; `999` is not a legal start offset). -/
def junkConfig : PlayerConfig := ⟨"", "", 999, 999⟩

/-- `gameState.players[gameState.currentPlayerIndex]`. -/
def currentPlayer (gs : GameState) : Player :=
  gs.players.getD gs.currentPlayerIndex junkPlayer

/-- JavaScript `Array.prototype.findIndex`, index accumulated explicitly
(`none` models the source's `-1`). -/
def findIndexAux (p : α → Bool) : List α → Nat → Option Nat
  | [], _ => none
  | a :: rest, i => if p a then some i else findIndexAux p rest (i + 1)

/-- `createLocalGame`'s destructured parameter record. -/
structure CreateConfig where
  playerCount : Nat
  playerNames : List String
  playerColors : List String
deriving DecidableEq, Repr

/-- `defaultColors` local of `createLocalGame`. -/
def defaultColors : List String := ["red", "green", "yellow", "blue"]

/-- `defaultNames` local of `createLocalGame`. -/
def defaultNames : List String := ["Player 1", "Player 2", "Player 3", "Player 4"]

/-- The four tokens built for a player in `createLocalGame`. -/
def mkTokens (color : String) : List Token :=
  (List.range TOKENS_PER_PLAYER).map fun t =>
    { id := color ++ "_" ++ toString t
      state := .base
      position := -1
      homeStretchPos := -1
      stepsFromStart := 0 }

/-- One player built in `createLocalGame`'s loop body (`""` models a missing
or empty — falsy — array entry). -/
def mkPlayer (cfg : CreateConfig) (i : Nat) : Player :=
  let c0 := cfg.playerColors.getD i ""
  let color := if c0 = "" then defaultColors.getD i "" else c0
  let pconf := (PLAYER_CONFIGS.find? fun c => c.color == color).getD
      (PLAYER_CONFIGS.getD i junkConfig)
  let n0 := cfg.playerNames.getD i ""
  let name := if n0 = "" then defaultNames.getD i "" else n0
  { index := i
    name := name
    color := color
    startPos := pconf.startPos
    homeEntryPos := pconf.homeEntryPos
    tokens := mkTokens color
    hasFinished := false
    finishOrder := -1 }

/-- `createLocalGame`; `gid` is the value `generateId()` produced. -/
def createLocalGame (gid : String) (cfg : CreateConfig) : GameState :=
  let players := (List.range cfg.playerCount).map (mkPlayer cfg)
  { id := gid
    players := players
    currentPlayerIndex := 0
    diceValue := none
    diceRolled := false
    hasExtraTurn := false
    consecutiveSixes := 0
    winner := none
    gameOver := false
    turnPhase := "roll"
    message := (players.getD 0 junkPlayer).name ++ "'s turn - Roll the dice!"
    moveHistory := []
    finishOrder := [] }

/-- The capture predicate tested against each opposing token in
`checkCapture`. -/
def capPred (pos : Int) (t : Token) : Bool :=
  t.state == TokenState.active && t.position == pos && decide (t.homeStretchPos < 0)

/-- The nested player/token scan of `checkCapture`, skipping the mover. -/
def checkCaptureAux (pos : Int) (skip : Nat) : List Player → Nat → Option (Nat × Nat)
  | [], _ => none
  | p :: rest, i =>
    if i = skip then checkCaptureAux pos skip rest (i + 1)
    else
      match findIndexAux (capPred pos) p.tokens 0 with
      | some t => some (i, t)
      | none => checkCaptureAux pos skip rest (i + 1)

/-- `checkCapture`. -/
def checkCapture (gs : GameState) (playerIndex : Nat) (position : Nat) :
    Option (Nat × Nat) :=
  if position ∈ SAFE_SQUARES then none
  else checkCaptureAux (position : Int) playerIndex gs.players 0

/-- The bounded `while` loop of `getNextPlayerIndex` (`fuel` is the
remaining `attempts` budget). -/
def nextLoop (players : List Player) (n : Nat) (fallback : Nat) :
    Nat → Nat → Nat
  | 0, _ => fallback
  | fuel + 1, next =>
    if (players.getD next junkPlayer).hasFinished = false then next
    else nextLoop players n fallback fuel ((next + 1) % n)

/-- `getNextPlayerIndex`. -/
def getNextPlayerIndex (gs : GameState) : Nat :=
  let n := gs.players.length
  nextLoop gs.players n gs.currentPlayerIndex n ((gs.currentPlayerIndex + 1) % n)

/-- One entry of the list returned by `getValidMovesLocal`. -/
structure ValidMove where
  tokenId : String
  tokenIndex : Nat
deriving DecidableEq, Repr

/-- The `forEach` collection loop of `getValidMovesLocal`. -/
def collectMoves (dice : Nat) : List Token → Nat → List ValidMove
  | [], _ => []
  | t :: rest, i =>
    let tail := collectMoves dice rest (i + 1)
    match t.state with
    | .home => tail
    | .base => if dice = 6 then ⟨t.id, i⟩ :: tail else tail
    | .active =>
      if t.stepsFromStart + dice ≤ BOARD_SIZE + HOME_STRETCH_LENGTH + 1 then
        ⟨t.id, i⟩ :: tail
      else tail

/-- `getValidMovesLocal` (`!diceValue` is true for both `null` and `0`). -/
def getValidMovesLocal (gs : GameState) : List ValidMove :=
  match gs.diceValue with
  | none => []
  | some d => if d = 0 then [] else collectMoves d (currentPlayer gs).tokens 0

/-- The token update applied to a captured token. -/
def resetToken (t : Token) : Token :=
  { t with state := .base, position := -1, homeStretchPos := -1, stepsFromStart := 0 }

/-- The acting-token transition of `moveLocalToken`: `none` is the
`Cannot move this token!` rejection; otherwise the moved token, the
main-track cell at which a capture is checked (if any), and the message. -/
def moveOutcome (player : Player) (token : Token) (dice : Option Nat) :
    Option (Token × Option Nat × String) :=
  if token.state = .base ∧ dice = some 6 then
    some ({ token with
              state := .active, position := (player.startPos : Int),
              stepsFromStart := 0 },
          some player.startPos,
          player.name ++ " moves a token to the starting position.")
  else if token.state = .active then
    let newSteps := token.stepsFromStart + dice.getD 0
    if newSteps = BOARD_SIZE + HOME_STRETCH_LENGTH + 1 then
      some ({ token with
                state := .home, position := -1, homeStretchPos := -1,
                stepsFromStart := newSteps },
            none,
            player.name ++ "'s token reached HOME!")
    else if newSteps > BOARD_SIZE then
      some ({ token with
                homeStretchPos := (newSteps : Int) - (BOARD_SIZE : Int) - 1,
                position := -1, stepsFromStart := newSteps },
            none,
            player.name ++ " moves a token into the home stretch.")
    else
      let newPosition := (player.startPos + newSteps) % BOARD_SIZE
      some ({ token with position := (newPosition : Int), stepsFromStart := newSteps },
            some newPosition,
            player.name ++ " moves a token " ++ toString (dice.getD 0) ++ " spaces.")
  else none

/-- The body of the `gameState.players.map((p, i) => ...)` rebuild: the
mover's token is replaced, the captured token (if any) is reset. -/
def updOne (pidx tokenIndex : Nat) (tok : Token) (captured : Option (Nat × Nat))
    (i : Nat) (p : Player) : Player :=
  if i = pidx then { p with tokens := p.tokens.set tokenIndex tok }
  else
    match captured with
    | some (ci, ct) =>
      if i = ci then
        { p with tokens := p.tokens.set ct (resetToken (p.tokens.getD ct junkToken)) }
      else p
    | none => p

/-- The `gameState.players.map((p, i) => ...)` rebuild of the player list. -/
def updatePlayersAfterMove (pidx tokenIndex : Nat) (tok : Token)
    (captured : Option (Nat × Nat)) : List Player → Nat → List Player
  | [], _ => []
  | p :: rest, i =>
    updOne pidx tokenIndex tok captured i p
      :: updatePlayersAfterMove pidx tokenIndex tok captured rest (i + 1)

/-- The tail of `moveLocalToken`: turn handover and the returned record. -/
def finishMove (gs : GameState) (playerIndex : Nat) (tokenId : String)
    (captured : Option (Nat × Nat)) (newPlayers : List Player)
    (finishOrder : List Nat) (gameOver : Bool) (winner : Option Nat)
    (msg : String) : GameState :=
  let hasExtraTurn := gs.hasExtraTurn || captured.isSome
  let nextPlayerIndex :=
    if gameOver = false ∧ hasExtraTurn = false then
      getNextPlayerIndex { gs with players := newPlayers }
    else playerIndex
  { gs with
    players := newPlayers
    currentPlayerIndex := nextPlayerIndex
    diceValue := none
    diceRolled := false
    turnPhase := "roll"
    hasExtraTurn := false
    consecutiveSixes := if hasExtraTurn then gs.consecutiveSixes else 0
    gameOver := gameOver
    winner := winner
    finishOrder := finishOrder
    message := msg
    moveHistory := gs.moveHistory ++ [⟨playerIndex, tokenId, gs.diceValue⟩] }

/-- `moveLocalToken`. -/
def moveLocalToken (gs : GameState) (tokenId : String) : GameState :=
  if gs.gameOver then { gs with message := "Game is over!" }
  else
    let playerIndex := gs.currentPlayerIndex
    let player := currentPlayer gs
    match findIndexAux (fun t => t.id == tokenId) player.tokens 0 with
    | none => { gs with message := "Invalid token!" }
    | some tokenIndex =>
      let token := player.tokens.getD tokenIndex junkToken
      match moveOutcome player token gs.diceValue with
      | none => { gs with message := "Cannot move this token!" }
      | some (token2, capturePos, msg0) =>
        let capturedToken := capturePos.bind (checkCapture gs playerIndex)
        let newPlayers :=
          updatePlayersAfterMove playerIndex tokenIndex token2 capturedToken gs.players 0
        let msg1 := if capturedToken.isSome then msg0 ++ " Captured a token!" else msg0
        let updatedPlayer := newPlayers.getD playerIndex junkPlayer
        let allHome := updatedPlayer.tokens.all fun t => t.state == TokenState.home
        if allHome ∧ updatedPlayer.hasFinished = false then
          let newPlayers2 := newPlayers.set playerIndex
            { updatedPlayer with
                hasFinished := true,
                finishOrder := (gs.finishOrder.length : Int) }
          let finishOrder2 := gs.finishOrder ++ [playerIndex]
          let activePlayers := (newPlayers2.filter fun p => p.hasFinished = false).length
          let gameOver2 : Bool := activePlayers ≤ 1 ∨ finishOrder2.length = 1
          let winner2 : Option Nat := if gameOver2 then some playerIndex else none
          let msg2 := if gameOver2 then updatedPlayer.name ++ " WINS! Congratulations!"
                      else msg1 ++ " " ++ updatedPlayer.name ++ " has finished!"
          finishMove gs playerIndex tokenId capturedToken newPlayers2 finishOrder2
            gameOver2 winner2 msg2
        else
          finishMove gs playerIndex tokenId capturedToken newPlayers gs.finishOrder
            false none msg1

/-- The tail of `rollLocalDice` after the six-streak handling: dispatch on
the current player's valid moves (none / auto-move / choice pending). -/
def rollProceed (gs : GameState) (d : Nat) (ns : GameState) : GameState :=
  match getValidMovesLocal ns with
  | [] =>
    if ns.hasExtraTurn then
      { ns with
        turnPhase := "roll"
        diceRolled := false
        diceValue := none
        hasExtraTurn := false
        message := (currentPlayer gs).name ++ " rolled " ++ toString d ++
          " but has no valid moves. Roll again!" }
    else
      { ns with
        turnPhase := "roll"
        diceRolled := false
        diceValue := none
        currentPlayerIndex := getNextPlayerIndex ns
        message := (currentPlayer gs).name ++ " rolled " ++ toString d ++
          " but has no valid moves." }
  | [m] => moveLocalToken ns m.tokenId
  | _ :: _ :: _ =>
    { ns with
      turnPhase := "move"
      message := (currentPlayer gs).name ++ " rolled " ++ toString d ++
        ". Choose a token to move." }

/-- `rollLocalDice`; `d` is the value `rollDieValue()` drew. -/
def rollLocalDice (gs : GameState) (d : Nat) : GameState :=
  if gs.gameOver then { gs with message := "Game is over!" }
  else if gs.turnPhase ≠ "roll" then { gs with message := "You must move a token first!" }
  else
    let withDice := { gs with diceValue := some d, diceRolled := true }
    if d = 6 ∧ gs.consecutiveSixes + 1 ≥ 3 then
      let ns := { withDice with consecutiveSixes := gs.consecutiveSixes + 1 }
      { ns with
        turnPhase := "roll"
        diceRolled := false
        diceValue := none
        consecutiveSixes := 0
        currentPlayerIndex := getNextPlayerIndex ns
        hasExtraTurn := false
        message := (currentPlayer gs).name ++ " rolled three 6s! Turn lost." }
    else
      let ns :=
        if d = 6 then
          { withDice with consecutiveSixes := gs.consecutiveSixes + 1, hasExtraTurn := true }
        else { withDice with consecutiveSixes := 0, hasExtraTurn := false }
      rollProceed gs d ns

/-- 2D grid coordinate used by the geometry helpers. -/
structure Coord where
  row : Nat
  col : Nat
deriving DecidableEq, Repr

/-- The `pathCoords` table inside `getBoardCoordinates`, transcribed
entry for entry. -/
def pathCoords : List Coord :=
  [⟨13, 6⟩, ⟨12, 6⟩, ⟨11, 6⟩, ⟨10, 6⟩, ⟨9, 6⟩,
   ⟨8, 5⟩, ⟨8, 4⟩, ⟨8, 3⟩, ⟨8, 2⟩, ⟨8, 1⟩, ⟨8, 0⟩,
   ⟨7, 0⟩, ⟨6, 0⟩,
   ⟨6, 1⟩, ⟨6, 2⟩, ⟨6, 3⟩, ⟨6, 4⟩, ⟨6, 5⟩,
   ⟨5, 6⟩, ⟨4, 6⟩, ⟨3, 6⟩, ⟨2, 6⟩, ⟨1, 6⟩, ⟨0, 6⟩,
   ⟨0, 7⟩, ⟨0, 8⟩,
   ⟨1, 8⟩, ⟨2, 8⟩, ⟨3, 8⟩, ⟨4, 8⟩, ⟨5, 8⟩,
   ⟨6, 9⟩, ⟨6, 10⟩, ⟨6, 11⟩, ⟨6, 12⟩, ⟨6, 13⟩, ⟨6, 14⟩,
   ⟨7, 14⟩, ⟨8, 14⟩,
   ⟨8, 13⟩, ⟨8, 12⟩, ⟨8, 11⟩, ⟨8, 10⟩, ⟨8, 9⟩,
   ⟨9, 8⟩, ⟨10, 8⟩, ⟨11, 8⟩, ⟨12, 8⟩, ⟨13, 8⟩, ⟨14, 8⟩,
   ⟨14, 7⟩, ⟨14, 6⟩,
   ⟨13, 7⟩]

/-- `getBoardCoordinates`. -/
def getBoardCoordinates (position : Int) : Coord :=
  if 0 ≤ position ∧ position < (pathCoords.length : Int) then
    pathCoords.getD position.toNat ⟨7, 7⟩
  else ⟨7, 7⟩

/-! ## Derived notions used by the theorems -/

/-- The token of player `i` at token index `j` (junk default out of range). -/
def tokAt (gs : GameState) (i j : Nat) : Token :=
  ((gs.players.getD i junkPlayer).tokens).getD j junkToken

/-- The token of the current player that `moveLocalToken gs tid` acts on:
the first token of the current player whose id is `tid`. -/
def lookedUpToken (gs : GameState) (tid : String) : Option Token :=
  (findIndexAux (fun t => t.id == tid) (currentPlayer gs).tokens 0).map
    fun k => (currentPlayer gs).tokens.getD k junkToken

/-- The eligibility condition `getValidMovesLocal` applies to one token. -/
def movableTok (dice : Nat) (t : Token) : Prop :=
  (t.state = .base ∧ dice = 6) ∨
    (t.state = .active ∧ t.stepsFromStart + dice ≤ BOARD_SIZE + HOME_STRETCH_LENGTH + 1)

/-- The opposing-token condition of `checkCapture`, as a proposition. -/
def capMatchP (pos : Int) (t : Token) : Prop :=
  t.state = .active ∧ t.position = pos ∧ t.homeStretchPos < 0

instance (pos : Int) (t : Token) : Decidable (capMatchP pos t) := by
  unfold capMatchP; infer_instance

/-! ## Helper lemmas -/

theorem getD_set_self {α : Type} (l : List α) (i : Nat) (a d : α)
    (h : i < l.length) : (l.set i a).getD i d = a := by
  induction l generalizing i with
  | nil => simp at h
  | cons x xs ih =>
    cases i with
    | zero => simp [List.set]
    | succ n =>
      simp only [List.set, List.getD_cons_succ]
      exact ih n (by simpa using h)

theorem getD_set_ne {α : Type} (l : List α) {i j : Nat} (a : α) (d : α)
    (h : i ≠ j) : (l.set i a).getD j d = l.getD j d := by
  induction l generalizing i j with
  | nil => simp [List.set]
  | cons x xs ih =>
    cases i with
    | zero =>
      cases j with
      | zero => exact absurd rfl h
      | succ m => simp [List.set]
    | succ n =>
      cases j with
      | zero => simp [List.set]
      | succ m =>
        simp only [List.set, List.getD_cons_succ]
        exact ih (fun hnm => h (by rw [hnm]))

theorem findIndexAux_shift {α : Type} (p : α → Bool) (l : List α) :
    ∀ i0, findIndexAux p l i0 = (findIndexAux p l 0).map (· + i0) := by
  induction l with
  | nil => intro i0; rfl
  | cons a rest ih =>
    intro i0
    cases hpa : p a
    · simp only [findIndexAux, hpa, if_false, Bool.false_eq_true]
      rw [ih (i0 + 1), ih 1, Option.map_map]
      congr 1
      funext x
      simp only [Function.comp_apply]
      omega
    · simp [findIndexAux, hpa]

theorem findIndexAux_zero_some {α : Type} (p : α → Bool) (d : α) (l : List α)
    (j : Nat) (h : findIndexAux p l 0 = some j) :
    j < l.length ∧ p (l.getD j d) = true ∧ ∀ j' < j, p (l.getD j' d) = false := by
  induction l generalizing j with
  | nil => simp [findIndexAux] at h
  | cons a rest ih =>
    cases hpa : p a
    · simp only [findIndexAux, hpa, if_false, Bool.false_eq_true] at h
      rw [findIndexAux_shift] at h
      cases hr : findIndexAux p rest 0 with
      | none => rw [hr] at h; simp at h
      | some v =>
        rw [hr] at h
        simp at h
        cases j with
        | zero => omega
        | succ j'' =>
          have hv : v = j'' := by omega
          obtain ⟨h1, h2, h3⟩ := ih j'' (by rw [← hv]; exact hr)
          refine ⟨by simpa using Nat.succ_lt_succ h1, by simpa using h2, ?_⟩
          intro j' hj'
          cases j' with
          | zero => simpa using hpa
          | succ m => simpa using h3 m (by omega)
    · simp only [findIndexAux, hpa, if_true] at h
      cases h
      refine ⟨by simp, by simpa using hpa, ?_⟩
      intro j' hj'; omega

theorem findIndexAux_zero_none {α : Type} (p : α → Bool) (l : List α)
    (h : findIndexAux p l 0 = none) : ∀ a ∈ l, p a = false := by
  induction l with
  | nil => intro a ha; simp at ha
  | cons a rest ih =>
    cases hpa : p a
    · simp only [findIndexAux, hpa, if_false, Bool.false_eq_true] at h
      rw [findIndexAux_shift] at h
      have hr : findIndexAux p rest 0 = none := by
        cases hr : findIndexAux p rest 0 with
        | none => rfl
        | some v => rw [hr] at h; simp at h
      intro x hx
      rcases List.mem_cons.mp hx with hx | hx
      · subst hx; exact hpa
      · exact ih hr x hx
    · simp [findIndexAux, hpa] at h

theorem updatePlayersAfterMove_length (pidx k : Nat) (tok : Token)
    (cap : Option (Nat × Nat)) : ∀ (l : List Player) (i0 : Nat),
    (updatePlayersAfterMove pidx k tok cap l i0).length = l.length := by
  intro l
  induction l with
  | nil => intro i0; rfl
  | cons p rest ih => intro i0; simp [updatePlayersAfterMove, ih]

theorem updatePlayersAfterMove_getD (pidx k : Nat) (tok : Token)
    (cap : Option (Nat × Nat)) : ∀ (l : List Player) (i0 j : Nat),
    (updatePlayersAfterMove pidx k tok cap l i0).getD j junkPlayer =
      if j < l.length then updOne pidx k tok cap (i0 + j) (l.getD j junkPlayer)
      else junkPlayer := by
  intro l
  induction l with
  | nil => intro i0 j; simp [updatePlayersAfterMove]
  | cons p rest ih =>
    intro i0 j
    cases j with
    | zero => simp [updatePlayersAfterMove]
    | succ m =>
      simp only [updatePlayersAfterMove, List.getD_cons_succ, List.length_cons]
      rw [ih (i0 + 1) m]
      have : i0 + 1 + m = i0 + (m + 1) := by omega
      rw [this]
      by_cases hm : m < rest.length
      · simp [hm, Nat.succ_lt_succ hm]
      · simp [hm, fun h => hm (Nat.lt_of_succ_lt_succ h)]

theorem finishMove_fields (gs : GameState) (pidx : Nat) (tid : String)
    (cap : Option (Nat × Nat)) (np : List Player) (fo : List Nat) (go : Bool)
    (w : Option Nat) (m : String) :
    (finishMove gs pidx tid cap np fo go w m).players = np ∧
    (finishMove gs pidx tid cap np fo go w m).diceValue = none ∧
    (finishMove gs pidx tid cap np fo go w m).diceRolled = false ∧
    (finishMove gs pidx tid cap np fo go w m).turnPhase = "roll" ∧
    (finishMove gs pidx tid cap np fo go w m).hasExtraTurn = false ∧
    (finishMove gs pidx tid cap np fo go w m).gameOver = go ∧
    (finishMove gs pidx tid cap np fo go w m).winner = w ∧
    (finishMove gs pidx tid cap np fo go w m).finishOrder = fo ∧
    (finishMove gs pidx tid cap np fo go w m).moveHistory =
      gs.moveHistory ++ [⟨pidx, tid, gs.diceValue⟩] := by
  unfold finishMove
  refine ⟨rfl, rfl, rfl, rfl, rfl, rfl, rfl, rfl, rfl⟩

/-- The result of a non-rejected `moveLocalToken`, written out as the source
computes it.  `t2` is the moved token, `cp` the main-track cell at which a
capture is checked, `m0` the base message. -/
def moveSuccessResult (gs : GameState) (tid : String) (k : Nat) (t2 : Token)
    (cp : Option Nat) (m0 : String) : GameState :=
  let pidx := gs.currentPlayerIndex
  let cap := cp.bind (checkCapture gs pidx)
  let np := updatePlayersAfterMove pidx k t2 cap gs.players 0
  let msg1 := if cap.isSome then m0 ++ " Captured a token!" else m0
  let up := np.getD pidx junkPlayer
  if (up.tokens.all fun t => t.state == TokenState.home) ∧ up.hasFinished = false then
    let np2 := np.set pidx
      { up with hasFinished := true, finishOrder := (gs.finishOrder.length : Int) }
    let fo2 := gs.finishOrder ++ [pidx]
    let active := (np2.filter fun p => p.hasFinished = false).length
    let go2 : Bool := active ≤ 1 ∨ fo2.length = 1
    let w2 : Option Nat := if go2 then some pidx else none
    let m2 := if go2 then up.name ++ " WINS! Congratulations!"
              else msg1 ++ " " ++ up.name ++ " has finished!"
    finishMove gs pidx tid cap np2 fo2 go2 w2 m2
  else finishMove gs pidx tid cap np gs.finishOrder false none msg1

theorem moveLocalToken_success (gs : GameState) (tid : String) (k : Nat)
    (t2 : Token) (cp : Option Nat) (m0 : String)
    (hGO : gs.gameOver = false)
    (hfind : findIndexAux (fun t => t.id == tid) (currentPlayer gs).tokens 0 = some k)
    (hout : moveOutcome (currentPlayer gs) ((currentPlayer gs).tokens.getD k junkToken)
      gs.diceValue = some (t2, cp, m0)) :
    moveLocalToken gs tid = moveSuccessResult gs tid k t2 cp m0 := by
  unfold moveLocalToken moveSuccessResult
  rw [hGO]
  simp only [Bool.false_eq_true, if_false, hfind, hout]

theorem moveOutcome_base6 (player : Player) (token : Token)
    (hb : token.state = .base) :
    moveOutcome player token (some 6) =
      some ({ token with
                state := .active, position := (player.startPos : Int),
                stepsFromStart := 0 },
            some player.startPos,
            player.name ++ " moves a token to the starting position.") := by
  simp [moveOutcome, hb]

theorem moveOutcome_active_home (player : Player) (token : Token) (d : Nat)
    (hact : token.state = .active) (h58 : token.stepsFromStart + d = 58) :
    moveOutcome player token (some d) =
      some ({ token with
                state := .home, position := -1, homeStretchPos := -1,
                stepsFromStart := token.stepsFromStart + d },
            none,
            player.name ++ "'s token reached HOME!") := by
  simp [moveOutcome, hact, BOARD_SIZE, HOME_STRETCH_LENGTH, h58]

theorem moveOutcome_active_stretch (player : Player) (token : Token) (d : Nat)
    (hact : token.state = .active) (hgt : token.stepsFromStart + d > 52)
    (hlt : token.stepsFromStart + d < 58) :
    moveOutcome player token (some d) =
      some ({ token with
                homeStretchPos := ((token.stepsFromStart + d : Nat) : Int) - 52 - 1,
                position := -1, stepsFromStart := token.stepsFromStart + d },
            none,
            player.name ++ " moves a token into the home stretch.") := by
  simp [moveOutcome, hact, BOARD_SIZE, HOME_STRETCH_LENGTH, hgt, Nat.ne_of_lt hlt]

theorem moveOutcome_active_track (player : Player) (token : Token) (d : Nat)
    (hact : token.state = .active) (hle : token.stepsFromStart + d ≤ 52) :
    moveOutcome player token (some d) =
      some ({ token with
                position := (((player.startPos + (token.stepsFromStart + d)) % 52 : Nat) : Int),
                stepsFromStart := token.stepsFromStart + d },
            some ((player.startPos + (token.stepsFromStart + d)) % 52),
            player.name ++ " moves a token " ++ toString d ++ " spaces.") := by
  have h1 : token.stepsFromStart + d ≠ 58 := by omega
  have h2 : ¬(token.stepsFromStart + d > 52) := by omega
  simp [moveOutcome, hact, BOARD_SIZE, HOME_STRETCH_LENGTH, h1, h2]

theorem moveOutcome_home (player : Player) (token : Token) (dice : Option Nat)
    (hh : token.state = .home) : moveOutcome player token dice = none := by
  simp [moveOutcome, hh]

theorem moveOutcome_base_not6 (player : Player) (token : Token) (dice : Option Nat)
    (hb : token.state = .base) (hd : dice ≠ some 6) :
    moveOutcome player token dice = none := by
  simp [moveOutcome, hb, hd]

/-- The mover's moved token is stored at its index in the result. -/
theorem tokAt_moveSuccessResult (gs : GameState) (tid : String) (k : Nat)
    (t2 : Token) (cp : Option Nat) (m0 : String)
    (hpidx : gs.currentPlayerIndex < gs.players.length)
    (hk : k < (currentPlayer gs).tokens.length) :
    tokAt (moveSuccessResult gs tid k t2 cp m0) gs.currentPlayerIndex k = t2 := by
  unfold tokAt
  simp only [moveSuccessResult]
  have hlen := updatePlayersAfterMove_length gs.currentPlayerIndex k t2
    ((cp.bind (checkCapture gs gs.currentPlayerIndex))) gs.players 0
  have hupd := updatePlayersAfterMove_getD gs.currentPlayerIndex k t2
    ((cp.bind (checkCapture gs gs.currentPlayerIndex))) gs.players 0 gs.currentPlayerIndex
  rw [if_pos hpidx] at hupd
  have hone : updOne gs.currentPlayerIndex k t2
      ((cp.bind (checkCapture gs gs.currentPlayerIndex))) (0 + gs.currentPlayerIndex)
      (gs.players.getD gs.currentPlayerIndex junkPlayer) =
      { gs.players.getD gs.currentPlayerIndex junkPlayer with
          tokens := (gs.players.getD gs.currentPlayerIndex junkPlayer).tokens.set k t2 } := by
    unfold updOne
    rw [if_pos (by omega)]
  split
  · rw [(finishMove_fields ..).1]
    rw [getD_set_self _ _ _ _ (by rw [hlen]; exact hpidx)]
    simp only []
    rw [hupd, hone]
    exact getD_set_self _ _ _ _ hk
  · rw [(finishMove_fields ..).1]
    rw [hupd, hone]
    exact getD_set_self _ _ _ _ hk

/-- A concrete two-player (red/green) state builder used by witnesses and
counterexamples. -/
def demoState (redTokens greenTokens : List Token) (dice : Option Nat) : GameState :=
  { id := "demo"
    players :=
      [{ index := 0, name := "Red", color := "red", startPos := 0, homeEntryPos := 50,
         tokens := redTokens, hasFinished := false, finishOrder := -1 },
       { index := 1, name := "Green", color := "green", startPos := 13, homeEntryPos := 11,
         tokens := greenTokens, hasFinished := false, finishOrder := -1 }]
    currentPlayerIndex := 0
    diceValue := dice
    diceRolled := dice.isSome
    hasExtraTurn := false
    consecutiveSixes := 0
    winner := none
    gameOver := false
    turnPhase := "move"
    message := ""
    moveHistory := []
    finishOrder := [] }

/-- Four base tokens of a given color. -/
def baseToks (color : String) : List Token :=
  [⟨color ++ "_0", .base, -1, -1, 0⟩, ⟨color ++ "_1", .base, -1, -1, 0⟩,
   ⟨color ++ "_2", .base, -1, -1, 0⟩, ⟨color ++ "_3", .base, -1, -1, 0⟩]

/-! ## Claim C1 -/

/-- State for the C1 counterexample: red's token 0 sits on home-stretch cell
4 (`stepsFromStart = 57`) and the rolled die is 6, so `s + d = 63 > 58`. -/
def c1cex : GameState :=
  demoState
    [⟨"red_0", .active, -1, 4, 57⟩, ⟨"red_1", .base, -1, -1, 0⟩,
     ⟨"red_2", .base, -1, -1, 0⟩, ⟨"red_3", .base, -1, -1, 0⟩]
    (baseToks "green") (some 6)

/-- C1 counterexample: with `s = 57` and `d = 6`, `s + d = 63` falls in the
claim's `otherwise` case, which demands `position = (startPos + s + d) mod 52
= 11`; the code instead keeps `position = -1` and writes
`homeStretchPos = 10` (beyond the 5-cell stretch). -/
theorem claim1_counterexample :
    (tokAt (moveLocalToken c1cex "red_0") 0 0).stepsFromStart = 63 ∧
    (tokAt (moveLocalToken c1cex "red_0") 0 0).state = .active ∧
    (tokAt (moveLocalToken c1cex "red_0") 0 0).homeStretchPos = 10 ∧
    ¬(tokAt (moveLocalToken c1cex "red_0") 0 0).position =
        (((0 + 57 + 6) % 52 : Nat) : Int) := by
  decide

/-- C1 (amended): the claim's three-way case split is exactly the code's
behaviour provided `s + d ≤ 58` (the bound `validMoves` enforces); for
`s + d > 58` the code instead writes an out-of-range home-stretch position
(see the counterexample).  For every `applyMove` on an Active token of the
current player with `stepsFromStart = s` and rolled dice value `d` with
`s + d ≤ 58`: if `s + d = 58` the token becomes Home with `position = -1`
and `homeStretchPos = -1`; if `52 < s + d < 58` the token stays Active with
`homeStretchPos = (s + d) - 52 - 1` and `position = -1`; otherwise the token
stays Active with `position = (startPos + s + d) mod 52`; and in every case
`stepsFromStart` becomes `s + d`. -/
theorem claim1_theorem (gs : GameState) (tid : String) (k s d : Nat)
    (hGO : gs.gameOver = false)
    (hpidx : gs.currentPlayerIndex < gs.players.length)
    (hfind : findIndexAux (fun t => t.id == tid) (currentPlayer gs).tokens 0 = some k)
    (hdice : gs.diceValue = some d)
    (hact : ((currentPlayer gs).tokens.getD k junkToken).state = .active)
    (hs : ((currentPlayer gs).tokens.getD k junkToken).stepsFromStart = s)
    (hle : s + d ≤ 58) :
    (tokAt (moveLocalToken gs tid) gs.currentPlayerIndex k).stepsFromStart = s + d ∧
    (s + d = 58 →
      (tokAt (moveLocalToken gs tid) gs.currentPlayerIndex k).state = .home ∧
      (tokAt (moveLocalToken gs tid) gs.currentPlayerIndex k).position = -1 ∧
      (tokAt (moveLocalToken gs tid) gs.currentPlayerIndex k).homeStretchPos = -1) ∧
    (52 < s + d → s + d < 58 →
      (tokAt (moveLocalToken gs tid) gs.currentPlayerIndex k).state = .active ∧
      (tokAt (moveLocalToken gs tid) gs.currentPlayerIndex k).position = -1 ∧
      (tokAt (moveLocalToken gs tid) gs.currentPlayerIndex k).homeStretchPos =
        ((s + d : Nat) : Int) - 52 - 1) ∧
    (s + d ≤ 52 →
      (tokAt (moveLocalToken gs tid) gs.currentPlayerIndex k).state = .active ∧
      (tokAt (moveLocalToken gs tid) gs.currentPlayerIndex k).position =
        ((((currentPlayer gs).startPos + (s + d)) % 52 : Nat) : Int)) := by
  have hk : k < (currentPlayer gs).tokens.length :=
    (findIndexAux_zero_some _ junkToken _ _ hfind).1
  rcases Nat.lt_or_ge 52 (s + d) with hgt | hle52
  · rcases Nat.eq_or_lt_of_le hle with h58 | hlt58
    · -- s + d = 58 : the token reaches home
      have hout : moveOutcome (currentPlayer gs)
          ((currentPlayer gs).tokens.getD k junkToken) gs.diceValue =
          some ({ (currentPlayer gs).tokens.getD k junkToken with
                    state := .home, position := -1, homeStretchPos := -1,
                    stepsFromStart :=
                      ((currentPlayer gs).tokens.getD k junkToken).stepsFromStart + d },
                none, (currentPlayer gs).name ++ "'s token reached HOME!") := by
        rw [hdice]
        exact moveOutcome_active_home _ _ d hact (by omega)
      rw [moveLocalToken_success gs tid k _ _ _ hGO hfind hout,
        tokAt_moveSuccessResult gs tid k _ _ _ hpidx hk]
      refine ⟨by simp only [hs], fun _ => ⟨rfl, rfl, rfl⟩, ?_, ?_⟩
      · intro _ h; exact absurd h58 (by omega)
      · intro h; exact absurd h (by omega)
    · -- 52 < s + d < 58 : home stretch
      have hout : moveOutcome (currentPlayer gs)
          ((currentPlayer gs).tokens.getD k junkToken) gs.diceValue =
          some ({ (currentPlayer gs).tokens.getD k junkToken with
                    homeStretchPos :=
                      ((((currentPlayer gs).tokens.getD k junkToken).stepsFromStart + d : Nat) : Int)
                        - 52 - 1,
                    position := -1,
                    stepsFromStart :=
                      ((currentPlayer gs).tokens.getD k junkToken).stepsFromStart + d },
                none, (currentPlayer gs).name ++ " moves a token into the home stretch.") := by
        rw [hdice]
        exact moveOutcome_active_stretch _ _ d hact (by omega) (by omega)
      rw [moveLocalToken_success gs tid k _ _ _ hGO hfind hout,
        tokAt_moveSuccessResult gs tid k _ _ _ hpidx hk]
      refine ⟨by simp only [hs], ?_, fun _ _ => ⟨hact, rfl, by simp only [hs]⟩, ?_⟩
      · intro h; exact absurd h (by omega)
      · intro h; exact absurd h (by omega)
  · -- s + d ≤ 52 : main track
    have hout : moveOutcome (currentPlayer gs)
        ((currentPlayer gs).tokens.getD k junkToken) gs.diceValue =
        some ({ (currentPlayer gs).tokens.getD k junkToken with
                  position := ((((currentPlayer gs).startPos +
                    (((currentPlayer gs).tokens.getD k junkToken).stepsFromStart + d)) % 52 : Nat) : Int),
                  stepsFromStart :=
                    ((currentPlayer gs).tokens.getD k junkToken).stepsFromStart + d },
              some (((currentPlayer gs).startPos +
                (((currentPlayer gs).tokens.getD k junkToken).stepsFromStart + d)) % 52),
              (currentPlayer gs).name ++ " moves a token " ++ toString d ++ " spaces.") := by
      rw [hdice]
      exact moveOutcome_active_track _ _ d hact (by omega)
    rw [moveLocalToken_success gs tid k _ _ _ hGO hfind hout,
      tokAt_moveSuccessResult gs tid k _ _ _ hpidx hk]
    refine ⟨by simp only [hs], ?_, ?_, fun _ => ⟨hact, by simp only [hs]⟩⟩
    · intro h; exact absurd h (by omega)
    · intro h; exact absurd h (by omega)

/-- State for the C1 witness: red's token 0 on main-track cell 3
(`stepsFromStart = 3`) with a rolled 2. -/
def c1wit : GameState :=
  demoState
    [⟨"red_0", .active, 3, -1, 3⟩, ⟨"red_1", .base, -1, -1, 0⟩,
     ⟨"red_2", .base, -1, -1, 0⟩, ⟨"red_3", .base, -1, -1, 0⟩]
    (baseToks "green") (some 2)

/-- C1 witness: `claim1_theorem` applied to the concrete state `c1wit`
(`s = 3`, `d = 2`, main-track case: the token moves to cell 5). -/
theorem claim1_witness :
    (tokAt (moveLocalToken c1wit "red_0") c1wit.currentPlayerIndex 0).stepsFromStart = 3 + 2 ∧
    (3 + 2 = 58 →
      (tokAt (moveLocalToken c1wit "red_0") c1wit.currentPlayerIndex 0).state = .home ∧
      (tokAt (moveLocalToken c1wit "red_0") c1wit.currentPlayerIndex 0).position = -1 ∧
      (tokAt (moveLocalToken c1wit "red_0") c1wit.currentPlayerIndex 0).homeStretchPos = -1) ∧
    (52 < 3 + 2 → 3 + 2 < 58 →
      (tokAt (moveLocalToken c1wit "red_0") c1wit.currentPlayerIndex 0).state = .active ∧
      (tokAt (moveLocalToken c1wit "red_0") c1wit.currentPlayerIndex 0).position = -1 ∧
      (tokAt (moveLocalToken c1wit "red_0") c1wit.currentPlayerIndex 0).homeStretchPos =
        ((3 + 2 : Nat) : Int) - 52 - 1) ∧
    (3 + 2 ≤ 52 →
      (tokAt (moveLocalToken c1wit "red_0") c1wit.currentPlayerIndex 0).state = .active ∧
      (tokAt (moveLocalToken c1wit "red_0") c1wit.currentPlayerIndex 0).position =
        ((((currentPlayer c1wit).startPos + (3 + 2)) % 52 : Nat) : Int)) :=
  claim1_theorem c1wit "red_0" 0 3 2 (by decide) (by decide) (by decide) (by decide)
    (by decide) (by decide) (by decide)

/-! ## Claim C3 -/

theorem moveLocalToken_gameOver (gs : GameState) (tid : String)
    (h : gs.gameOver = true) :
    moveLocalToken gs tid = { gs with message := "Game is over!" } := by
  unfold moveLocalToken
  rw [h]
  simp

theorem moveLocalToken_invalid (gs : GameState) (tid : String)
    (hGO : gs.gameOver = false)
    (h : findIndexAux (fun t => t.id == tid) (currentPlayer gs).tokens 0 = none) :
    moveLocalToken gs tid = { gs with message := "Invalid token!" } := by
  unfold moveLocalToken
  rw [hGO]
  simp [h]

theorem moveLocalToken_cannot (gs : GameState) (tid : String) (k : Nat)
    (hGO : gs.gameOver = false)
    (hfind : findIndexAux (fun t => t.id == tid) (currentPlayer gs).tokens 0 = some k)
    (hout : moveOutcome (currentPlayer gs) ((currentPlayer gs).tokens.getD k junkToken)
      gs.diceValue = none) :
    moveLocalToken gs tid = { gs with message := "Cannot move this token!" } := by
  unfold moveLocalToken
  rw [hGO]
  simp only [Bool.false_eq_true, if_false, hfind, hout]

theorem moveOutcome_active_isSome (player : Player) (token : Token)
    (dice : Option Nat) (hact : token.state = .active) :
    ∃ r, moveOutcome player token dice = some r := by
  unfold moveOutcome
  rw [hact, if_neg (by simp), if_pos rfl]
  dsimp only
  split
  · exact ⟨_, rfl⟩
  · split
    · exact ⟨_, rfl⟩
    · exact ⟨_, rfl⟩

theorem moveSuccessResult_moveHistory (gs : GameState) (tid : String) (k : Nat)
    (t2 : Token) (cp : Option Nat) (m0 : String) :
    (moveSuccessResult gs tid k t2 cp m0).moveHistory =
      gs.moveHistory ++ [⟨gs.currentPlayerIndex, tid, gs.diceValue⟩] := by
  simp only [moveSuccessResult]
  split
  · exact (finishMove_fields ..).2.2.2.2.2.2.2.2
  · exact (finishMove_fields ..).2.2.2.2.2.2.2.2

/-- C3 counterexample state A: an Active token with **no dice value present**
(`diceValue = null`): the claim says this is rejected as a no-op, but the
code coerces the missing value to `0` and applies a move. -/
def c3cex : GameState :=
  demoState
    [⟨"red_0", .active, 5, -1, 5⟩, ⟨"red_1", .base, -1, -1, 0⟩,
     ⟨"red_2", .base, -1, -1, 0⟩, ⟨"red_3", .base, -1, -1, 0⟩]
    (baseToks "green") none

/-- C3 counterexample state B: an Active token whose move **overshoots**
(`stepsFromStart + dice = 63 > 58`): the claim says this is rejected as a
no-op, but the code applies it. -/
def c3cexB : GameState :=
  demoState
    [⟨"red_0", .active, -1, 4, 57⟩, ⟨"red_1", .base, -1, -1, 0⟩,
     ⟨"red_2", .base, -1, -1, 0⟩, ⟨"red_3", .base, -1, -1, 0⟩]
    (baseToks "green") (some 6)

/-- C3 counterexample: neither the missing-dice case (state A) nor the
overshoot case (state B) is a no-op — both append to `moveHistory`, so the
result is not the input state with only `message` changed. -/
theorem claim3_counterexample :
    (moveLocalToken c3cex "red_0").moveHistory ≠ c3cex.moveHistory ∧
    (moveLocalToken c3cexB "red_0").moveHistory ≠ c3cexB.moveHistory := by
  decide

/-- C3 (amended): `applyMove` returns the input state unchanged except for
the `message` field exactly when `gameOver` is set, or `tokenId` does not
belong to the current player, or the token is Home, or the token is Base
and the dice value is not 6.  There is **no** defensive re-check of the
`validMoves` rule for Active tokens: an Active token with
`stepsFromStart + diceValue > 58` (overshoot), or an Active token when no
dice value is present, is moved rather than rejected. -/
theorem claim3_theorem (gs : GameState) (tid : String) :
    (∃ m, moveLocalToken gs tid = { gs with message := m }) ↔
      (gs.gameOver = true ∨
       findIndexAux (fun t => t.id == tid) (currentPlayer gs).tokens 0 = none ∨
       ∃ k, findIndexAux (fun t => t.id == tid) (currentPlayer gs).tokens 0 = some k ∧
         (((currentPlayer gs).tokens.getD k junkToken).state = .home ∨
          (((currentPlayer gs).tokens.getD k junkToken).state = .base ∧
            gs.diceValue ≠ some 6))) := by
  constructor
  · intro hm
    by_cases hGO : gs.gameOver
    · exact Or.inl hGO
    · have hGO' : gs.gameOver = false := by simpa using hGO
      cases hfind : findIndexAux (fun t => t.id == tid) (currentPlayer gs).tokens 0 with
      | none => exact Or.inr (Or.inl rfl)
      | some k =>
        refine Or.inr (Or.inr ⟨k, rfl, ?_⟩)
        by_contra hnot
        push_neg at hnot
        obtain ⟨hnh, hnb⟩ := hnot
        have hsome : ∃ r, moveOutcome (currentPlayer gs)
            ((currentPlayer gs).tokens.getD k junkToken) gs.diceValue = some r := by
          cases hst : ((currentPlayer gs).tokens.getD k junkToken).state with
          | home => exact absurd hst hnh
          | active => exact moveOutcome_active_isSome _ _ _ hst
          | base =>
            have hd6 : gs.diceValue = some 6 := hnb hst
            exact ⟨_, by rw [hd6]; exact moveOutcome_base6 _ _ hst⟩
        obtain ⟨⟨t2, cp, m0⟩, hout⟩ := hsome
        obtain ⟨m, hm⟩ := hm
        have hmh : (moveLocalToken gs tid).moveHistory =
            gs.moveHistory ++ [⟨gs.currentPlayerIndex, tid, gs.diceValue⟩] := by
          rw [moveLocalToken_success gs tid k t2 cp m0 hGO' hfind hout]
          exact moveSuccessResult_moveHistory ..
        rw [hm] at hmh
        have hlen := congrArg List.length hmh
        simp at hlen
  · intro h
    by_cases hGO : gs.gameOver
    · exact ⟨"Game is over!", moveLocalToken_gameOver gs tid hGO⟩
    · have hGO' : gs.gameOver = false := by simpa using hGO
      rcases h with h | h | ⟨k, hfind, hk⟩
      · exact absurd h (by simp [hGO'])
      · exact ⟨"Invalid token!", moveLocalToken_invalid gs tid hGO' h⟩
      · have hout : moveOutcome (currentPlayer gs)
            ((currentPlayer gs).tokens.getD k junkToken) gs.diceValue = none := by
          rcases hk with hh | ⟨hb, hd⟩
          · exact moveOutcome_home _ _ _ hh
          · exact moveOutcome_base_not6 _ _ _ hb hd
        exact ⟨"Cannot move this token!", moveLocalToken_cannot gs tid k hGO' hfind hout⟩

/-! ## Claim C10 -/

/-- Players other than the mover and the captured player are untouched by a
successful move. -/
theorem moveSuccessResult_players_getD_other (gs : GameState) (tid : String)
    (k : Nat) (t2 : Token) (cp : Option Nat) (m0 : String) (j : Nat)
    (hj : j ≠ gs.currentPlayerIndex)
    (hcap : ∀ ci ct, cp.bind (checkCapture gs gs.currentPlayerIndex) = some (ci, ct) →
      j ≠ ci) :
    (moveSuccessResult gs tid k t2 cp m0).players.getD j junkPlayer =
      gs.players.getD j junkPlayer := by
  simp only [moveSuccessResult]
  have hupd := updatePlayersAfterMove_getD gs.currentPlayerIndex k t2
    (cp.bind (checkCapture gs gs.currentPlayerIndex)) gs.players 0 j
  have hone : updOne gs.currentPlayerIndex k t2
      (cp.bind (checkCapture gs gs.currentPlayerIndex)) (0 + j)
      (gs.players.getD j junkPlayer) = gs.players.getD j junkPlayer := by
    unfold updOne
    rw [if_neg (by omega)]
    cases hc : cp.bind (checkCapture gs gs.currentPlayerIndex) with
    | none => rfl
    | some pr =>
      cases pr with
      | mk ci ct =>
        have : j ≠ ci := hcap ci ct hc
        simp only []
        rw [if_neg (by omega)]
  have hnp : (updatePlayersAfterMove gs.currentPlayerIndex k t2
      (cp.bind (checkCapture gs gs.currentPlayerIndex)) gs.players 0).getD j junkPlayer =
      gs.players.getD j junkPlayer := by
    rw [hupd]
    by_cases hlt : j < gs.players.length
    · rw [if_pos hlt, hone]
    · rw [if_neg hlt, List.getD_eq_default _ _ (by omega)]
  split
  · rw [(finishMove_fields ..).1,
      getD_set_ne _ _ _ (fun h => hj h.symm), hnp]
  · rw [(finishMove_fields ..).1, hnp]

theorem pconf_mem (color : String) (i : Nat) (hi : i < 4) :
    ((PLAYER_CONFIGS.find? fun c => c.color == color).getD
      (PLAYER_CONFIGS.getD i junkConfig)) ∈ PLAYER_CONFIGS := by
  cases hf : PLAYER_CONFIGS.find? fun c => c.color == color with
  | some c => simpa using List.mem_of_find?_eq_some hf
  | none =>
    simp only [Option.getD_none]
    interval_cases i <;> decide

theorem startPos_mem_of_mem (c : PlayerConfig) (h : c ∈ PLAYER_CONFIGS) :
    c.startPos ∈ ([0, 13, 26, 39] : List Nat) ∧ c.startPos ∈ SAFE_SQUARES := by
  simp only [PLAYER_CONFIGS, List.mem_cons, List.not_mem_nil, or_false] at h
  rcases h with rfl | rfl | rfl | rfl <;> exact ⟨by decide, by decide⟩

theorem checkCapture_safe (gs : GameState) (i pos : Nat)
    (h : pos ∈ SAFE_SQUARES) : checkCapture gs i pos = none := by
  unfold checkCapture
  rw [if_pos h]

/-- C10: a Base → Active move never captures.  (i) Every player of every
`createGame` game (player count at most 4 — more would crash the source on
an out-of-range config access) has `startPos` among 0, 13, 26, 39, each a
safe square; (ii) the capture check returns no capture at any safe square in
any state whatsoever; (iii) consequently a Base token leaving base in a state
whose current player has a safe `startPos` leaves every opposing player's
record — tokens included — unchanged. -/
theorem claim10_theorem :
    (∀ gid cfg, cfg.playerCount ≤ 4 →
      ∀ p ∈ (createLocalGame gid cfg).players,
        p.startPos ∈ ([0, 13, 26, 39] : List Nat) ∧ p.startPos ∈ SAFE_SQUARES) ∧
    (∀ gs i pos, pos ∈ SAFE_SQUARES → checkCapture gs i pos = none) ∧
    (∀ gs tid k, gs.gameOver = false →
      findIndexAux (fun t => t.id == tid) (currentPlayer gs).tokens 0 = some k →
      ((currentPlayer gs).tokens.getD k junkToken).state = .base →
      gs.diceValue = some 6 →
      (currentPlayer gs).startPos ∈ SAFE_SQUARES →
      ∀ j, j ≠ gs.currentPlayerIndex →
        (moveLocalToken gs tid).players.getD j junkPlayer =
          gs.players.getD j junkPlayer) := by
  refine ⟨?_, fun gs i pos h => checkCapture_safe gs i pos h, ?_⟩
  · intro gid cfg hc p hp
    simp only [createLocalGame] at hp
    obtain ⟨i, hi, rfl⟩ := List.mem_map.mp hp
    have hi4 : i < 4 := lt_of_lt_of_le (List.mem_range.mp hi) hc
    exact startPos_mem_of_mem _
      (pconf_mem (let c0 := cfg.playerColors.getD i "";
        if c0 = "" then defaultColors.getD i "" else c0) i hi4)
  · intro gs tid k hGO hfind hbase hdice hsafe j hj
    have hout : moveOutcome (currentPlayer gs)
        ((currentPlayer gs).tokens.getD k junkToken) gs.diceValue =
        some ({ (currentPlayer gs).tokens.getD k junkToken with
                  state := .active, position := ((currentPlayer gs).startPos : Int),
                  stepsFromStart := 0 },
              some (currentPlayer gs).startPos,
              (currentPlayer gs).name ++ " moves a token to the starting position.") := by
      rw [hdice]
      exact moveOutcome_base6 _ _ hbase
    rw [moveLocalToken_success gs tid k _ _ _ hGO hfind hout]
    refine moveSuccessResult_players_getD_other gs tid k _ _ _ j hj ?_
    intro ci ct hcapbind
    rw [show (some (currentPlayer gs).startPos).bind (checkCapture gs gs.currentPlayerIndex) =
      checkCapture gs gs.currentPlayerIndex (currentPlayer gs).startPos from rfl,
      checkCapture_safe _ _ _ hsafe] at hcapbind
    exact absurd hcapbind (by simp)

/-- State for the C10 witness: red moves `red_1` out of base onto start cell
0 (a safe cell) while green's `green_0` also sits on cell 0; green must be
untouched. -/
def c10wit : GameState :=
  demoState
    [⟨"red_0", .active, 20, -1, 20⟩, ⟨"red_1", .base, -1, -1, 0⟩,
     ⟨"red_2", .base, -1, -1, 0⟩, ⟨"red_3", .base, -1, -1, 0⟩]
    [⟨"green_0", .active, 0, -1, 39⟩, ⟨"green_1", .base, -1, -1, 0⟩,
     ⟨"green_2", .base, -1, -1, 0⟩, ⟨"green_3", .base, -1, -1, 0⟩]
    (some 6)

/-- C10 witness: `claim10_theorem` applied to concrete inputs — the
`createGame` part at a 2-player config, the safe-cell part at cell 8, and
the no-capture part at `c10wit`, where green player 1 is unchanged even
though a green token occupies red's start cell. -/
theorem claim10_witness :
    (((createLocalGame "g" ⟨2, [], []⟩).players.getD 0 junkPlayer).startPos ∈
        ([0, 13, 26, 39] : List Nat) ∧
      ((createLocalGame "g" ⟨2, [], []⟩).players.getD 0 junkPlayer).startPos ∈
        SAFE_SQUARES) ∧
    checkCapture c10wit 0 8 = none ∧
    (moveLocalToken c10wit "red_1").players.getD 1 junkPlayer =
      c10wit.players.getD 1 junkPlayer :=
  ⟨claim10_theorem.1 "g" ⟨2, [], []⟩ (by decide) _ (by decide),
   claim10_theorem.2.1 c10wit 0 8 (by decide),
   claim10_theorem.2.2 c10wit "red_1" 1 (by decide) (by decide) (by decide)
     (by decide) (by decide) 1 (by decide)⟩

/-! ## Claim C5 -/

/-- The bounded scan of `getNextPlayerIndex` returns the cyclically first
non-finished player after the start position, when one exists within the
fuel budget. -/
theorem nextLoop_spec (players : List Player) (n fb : Nat) (_hn : 0 < n) :
    ∀ fuel s0,
    (∃ j, j < fuel ∧
      (players.getD ((s0 + j) % n) junkPlayer).hasFinished = false) →
    ∃ j, j < fuel ∧
      (players.getD ((s0 + j) % n) junkPlayer).hasFinished = false ∧
      (∀ j' < j, (players.getD ((s0 + j') % n) junkPlayer).hasFinished = true) ∧
      nextLoop players n fb fuel (s0 % n) = (s0 + j) % n := by
  intro fuel
  induction fuel with
  | zero =>
    intro s0 h
    obtain ⟨j, hj, _⟩ := h
    omega
  | succ f ih =>
    intro s0 h
    obtain ⟨j, hj, hfree⟩ := h
    by_cases h0 : (players.getD (s0 % n) junkPlayer).hasFinished = false
    · refine ⟨0, by omega, by simpa using h0, by omega, ?_⟩
      unfold nextLoop
      rw [if_pos h0, Nat.add_zero]
    · have h0' : (players.getD (s0 % n) junkPlayer).hasFinished = true := by
        revert h0
        cases (players.getD (s0 % n) junkPlayer).hasFinished <;> simp
      have hj0 : j ≠ 0 := by
        intro hz
        rw [hz, Nat.add_zero] at hfree
        exact h0 hfree
      have hex : ∃ j', j' < f ∧
          (players.getD ((s0 + 1 + j') % n) junkPlayer).hasFinished = false := by
        refine ⟨j - 1, by omega, ?_⟩
        rw [show s0 + 1 + (j - 1) = s0 + j by omega]
        exact hfree
      obtain ⟨j2, hj2f, hfree2, hmin2, heq2⟩ := ih (s0 + 1) hex
      refine ⟨j2 + 1, by omega, ?_, ?_, ?_⟩
      · rw [show s0 + (j2 + 1) = s0 + 1 + j2 by omega]
        exact hfree2
      · intro j' hj'
        cases j' with
        | zero => rw [Nat.add_zero]; exact h0'
        | succ m =>
          rw [show s0 + (m + 1) = s0 + 1 + m by omega]
          exact hmin2 m (by omega)
      · unfold nextLoop
        rw [if_neg h0, Nat.mod_add_mod, heq2,
          show s0 + 1 + j2 = s0 + (j2 + 1) by omega]

/-- The three-consecutive-sixes branch of `rollLocalDice`, written out. -/
theorem rollLocalDice_threeSixes (gs : GameState)
    (hGO : gs.gameOver = false) (hphase : gs.turnPhase = "roll")
    (hsix : gs.consecutiveSixes + 1 ≥ 3) :
    rollLocalDice gs 6 =
      { gs with
        diceValue := none
        diceRolled := false
        turnPhase := "roll"
        consecutiveSixes := 0
        currentPlayerIndex := getNextPlayerIndex gs
        hasExtraTurn := false
        message := (currentPlayer gs).name ++ " rolled three 6s! Turn lost." } := by
  unfold rollLocalDice
  rw [hGO]
  simp only [Bool.false_eq_true, if_false]
  rw [if_neg (by simp [hphase]), if_pos ⟨by trivial, hsix⟩]
  rfl

/-- C5: rolling a six when the current player already has two consecutive
sixes forfeits the turn before any move-validity computation: the returned
state has `consecutiveSixes = 0`, dice cleared, `turnPhase = Roll`, players
and move history untouched, and `currentPlayerIndex` advanced to the
cyclically first non-finished player after the mover (one such player is
assumed to exist). -/
theorem claim5_theorem (gs : GameState)
    (hGO : gs.gameOver = false)
    (hphase : gs.turnPhase = "roll")
    (hsix : gs.consecutiveSixes ≥ 2)
    (hex : ∃ k, 1 ≤ k ∧ k ≤ gs.players.length ∧
      (gs.players.getD ((gs.currentPlayerIndex + k) % gs.players.length)
        junkPlayer).hasFinished = false) :
    (rollLocalDice gs 6).consecutiveSixes = 0 ∧
    (rollLocalDice gs 6).diceValue = none ∧
    (rollLocalDice gs 6).diceRolled = false ∧
    (rollLocalDice gs 6).turnPhase = "roll" ∧
    (rollLocalDice gs 6).players = gs.players ∧
    (rollLocalDice gs 6).moveHistory = gs.moveHistory ∧
    ∃ k, 1 ≤ k ∧ k ≤ gs.players.length ∧
      (gs.players.getD ((gs.currentPlayerIndex + k) % gs.players.length)
        junkPlayer).hasFinished = false ∧
      (∀ k', 1 ≤ k' → k' < k →
        (gs.players.getD ((gs.currentPlayerIndex + k') % gs.players.length)
          junkPlayer).hasFinished = true) ∧
      (rollLocalDice gs 6).currentPlayerIndex =
        (gs.currentPlayerIndex + k) % gs.players.length := by
  rw [rollLocalDice_threeSixes gs hGO hphase (by omega)]
  refine ⟨rfl, rfl, rfl, rfl, rfl, rfl, ?_⟩
  obtain ⟨k0, hk1, hk2, hkfree⟩ := hex
  have hn : 0 < gs.players.length := by omega
  have hex' : ∃ j, j < gs.players.length ∧
      (gs.players.getD ((gs.currentPlayerIndex + 1 + j) % gs.players.length)
        junkPlayer).hasFinished = false := by
    refine ⟨k0 - 1, by omega, ?_⟩
    rw [show gs.currentPlayerIndex + 1 + (k0 - 1) = gs.currentPlayerIndex + k0 by omega]
    exact hkfree
  obtain ⟨j, hjlt, hjfree, hjmin, hjeq⟩ :=
    nextLoop_spec gs.players gs.players.length gs.currentPlayerIndex hn
      gs.players.length (gs.currentPlayerIndex + 1) hex'
  refine ⟨j + 1, by omega, by omega, ?_, ?_, ?_⟩
  · rw [show gs.currentPlayerIndex + (j + 1) = gs.currentPlayerIndex + 1 + j by omega]
    exact hjfree
  · intro k' hk'1 hk'2
    rw [show gs.currentPlayerIndex + k' = gs.currentPlayerIndex + 1 + (k' - 1) by omega]
    exact hjmin (k' - 1) (by omega)
  · show getNextPlayerIndex gs = _
    unfold getNextPlayerIndex
    rw [hjeq, show gs.currentPlayerIndex + 1 + j = gs.currentPlayerIndex + (j + 1) by omega]

/-- State for the C5 witness: red has rolled two consecutive sixes and is
about to roll a third. -/
def c5wit : GameState :=
  { demoState (baseToks "red") (baseToks "green") none with
      turnPhase := "roll", consecutiveSixes := 2 }

/-- C5 witness: `claim5_theorem` applied to `c5wit` — the third six hands
the turn to green with the dice cleared and no move applied. -/
theorem claim5_witness :
    (rollLocalDice c5wit 6).consecutiveSixes = 0 ∧
    (rollLocalDice c5wit 6).diceValue = none ∧
    (rollLocalDice c5wit 6).diceRolled = false ∧
    (rollLocalDice c5wit 6).turnPhase = "roll" ∧
    (rollLocalDice c5wit 6).players = c5wit.players ∧
    (rollLocalDice c5wit 6).moveHistory = c5wit.moveHistory ∧
    ∃ k, 1 ≤ k ∧ k ≤ c5wit.players.length ∧
      (c5wit.players.getD ((c5wit.currentPlayerIndex + k) % c5wit.players.length)
        junkPlayer).hasFinished = false ∧
      (∀ k', 1 ≤ k' → k' < k →
        (c5wit.players.getD ((c5wit.currentPlayerIndex + k') % c5wit.players.length)
          junkPlayer).hasFinished = true) ∧
      (rollLocalDice c5wit 6).currentPlayerIndex =
        (c5wit.currentPlayerIndex + k) % c5wit.players.length :=
  claim5_theorem c5wit (by decide) (by decide) (by decide)
    ⟨1, by decide, by decide, by decide⟩

/-! ## Claim C2 -/

theorem capPred_iff (pos : Int) (t : Token) :
    capPred pos t = true ↔ capMatchP pos t := by
  unfold capPred capMatchP
  simp [Bool.and_eq_true, beq_iff_eq, decide_eq_true_eq, and_assoc]

/-- The nested scan finds nothing iff no non-skipped player holds a
matching token. -/
theorem checkCaptureAux_none_iff (pos : Int) (skip : Nat) :
    ∀ (l : List Player) (i0 : Nat),
    checkCaptureAux pos skip l i0 = none ↔
      ∀ j < l.length, i0 + j ≠ skip →
        ∀ u < (l.getD j junkPlayer).tokens.length,
          ¬capMatchP pos ((l.getD j junkPlayer).tokens.getD u junkToken) := by
  intro l
  induction l with
  | nil => intro i0; simp [checkCaptureAux]
  | cons p rest ih =>
    intro i0
    unfold checkCaptureAux
    by_cases hskip : i0 = skip
    · rw [if_pos hskip, ih (i0 + 1)]
      constructor
      · intro h j hj hne
        cases j with
        | zero => exact absurd (by omega : i0 + 0 = skip) hne
        | succ m =>
          have := h m (by simpa using Nat.lt_of_succ_lt_succ hj) (by omega)
          simpa using this
      · intro h m hm hne
        have := h (m + 1) (by simpa using Nat.succ_lt_succ hm) (by omega)
        simpa using this
    · rw [if_neg hskip]
      cases hf : findIndexAux (capPred pos) p.tokens 0 with
      | some t =>
        simp only []
        constructor
        · intro h; exact absurd h (by simp)
        · intro h
          exfalso
          obtain ⟨hlt, hcp, _⟩ := findIndexAux_zero_some (capPred pos) junkToken _ _ hf
          exact h 0 (by simp) (by omega) t (by simpa using hlt)
            ((capPred_iff pos _).mp hcp)
      | none =>
        simp only []
        rw [ih (i0 + 1)]
        constructor
        · intro h j hj hne
          cases j with
          | zero =>
            intro u hu hcm
            have hfalse := findIndexAux_zero_none (capPred pos) p.tokens hf
              (p.tokens.getD u junkToken)
              (by rw [List.getD_eq_getElem _ _ (by simpa using hu)]
                  exact List.getElem_mem _)
            have htrue : capPred pos (p.tokens.getD u junkToken) = true :=
              (capPred_iff pos _).mpr (by simpa using hcm)
            rw [htrue] at hfalse
            exact absurd hfalse (by decide)
          | succ m =>
            have := h m (by simpa using Nat.lt_of_succ_lt_succ hj) (by omega)
            simpa using this
        · intro h m hm hne
          have := h (m + 1) (by simpa using Nat.succ_lt_succ hm) (by omega)
          simpa using this

/-- What a successful nested scan returns: the first matching opposing token
in player-then-token scan order. -/
theorem checkCaptureAux_some_spec (pos : Int) (skip : Nat) :
    ∀ (l : List Player) (i0 ci ct : Nat),
    checkCaptureAux pos skip l i0 = some (ci, ct) →
    i0 ≤ ci ∧ ci - i0 < l.length ∧ ci ≠ skip ∧
    findIndexAux (capPred pos) ((l.getD (ci - i0) junkPlayer).tokens) 0 = some ct ∧
    ∀ j < ci - i0, i0 + j ≠ skip →
      findIndexAux (capPred pos) ((l.getD j junkPlayer).tokens) 0 = none := by
  intro l
  induction l with
  | nil => intro i0 ci ct h; simp [checkCaptureAux] at h
  | cons p rest ih =>
    intro i0 ci ct h
    unfold checkCaptureAux at h
    by_cases hskip : i0 = skip
    · rw [if_pos hskip] at h
      obtain ⟨h1, h2, h3, h4, h5⟩ := ih (i0 + 1) ci ct h
      have hd : ci - i0 = (ci - (i0 + 1)) + 1 := by omega
      refine ⟨by omega, by simp; omega, h3, ?_, ?_⟩
      · rw [hd]; simpa using h4
      · intro j hj hne
        cases j with
        | zero => exact absurd (by omega : i0 + 0 = skip) hne
        | succ m =>
          have := h5 m (by omega) (by omega)
          simpa using this
    · rw [if_neg hskip] at h
      cases hf : findIndexAux (capPred pos) p.tokens 0 with
      | some t =>
        rw [hf] at h
        simp only [Option.some_inj, Prod.mk.injEq] at h
        obtain ⟨rfl, rfl⟩ := h
        refine ⟨le_rfl, by simp, hskip, ?_, ?_⟩
        · simpa [Nat.sub_self] using hf
        · intro j hj; omega
      | none =>
        rw [hf] at h
        obtain ⟨h1, h2, h3, h4, h5⟩ := ih (i0 + 1) ci ct h
        have hd : ci - i0 = (ci - (i0 + 1)) + 1 := by omega
        refine ⟨by omega, by simp; omega, h3, ?_, ?_⟩
        · rw [hd]; simpa using h4
        · intro j hj hne
          cases j with
          | zero => simpa using hf
          | succ m =>
            have := h5 m (by omega) (by omega)
            simpa using this

/-- The mover's token row in a successful move result: token `k` replaced by
the moved token. -/
theorem moveSuccessResult_mover_tokens (gs : GameState) (tid : String) (k : Nat)
    (t2 : Token) (cp : Option Nat) (m0 : String)
    (hpidx : gs.currentPlayerIndex < gs.players.length) :
    ((moveSuccessResult gs tid k t2 cp m0).players.getD gs.currentPlayerIndex
      junkPlayer).tokens = (currentPlayer gs).tokens.set k t2 := by
  simp only [moveSuccessResult]
  have hlen := updatePlayersAfterMove_length gs.currentPlayerIndex k t2
    (cp.bind (checkCapture gs gs.currentPlayerIndex)) gs.players 0
  have hupd := updatePlayersAfterMove_getD gs.currentPlayerIndex k t2
    (cp.bind (checkCapture gs gs.currentPlayerIndex)) gs.players 0 gs.currentPlayerIndex
  rw [if_pos hpidx] at hupd
  have hone : updOne gs.currentPlayerIndex k t2
      (cp.bind (checkCapture gs gs.currentPlayerIndex)) (0 + gs.currentPlayerIndex)
      (gs.players.getD gs.currentPlayerIndex junkPlayer) =
      { gs.players.getD gs.currentPlayerIndex junkPlayer with
          tokens := (gs.players.getD gs.currentPlayerIndex junkPlayer).tokens.set k t2 } := by
    unfold updOne
    rw [if_pos (by omega)]
  split
  · rw [(finishMove_fields ..).1,
      getD_set_self _ _ _ _ (by rw [hlen]; exact hpidx)]
    simp only []
    rw [hupd, hone]
    rfl
  · rw [(finishMove_fields ..).1, hupd, hone]
    rfl

/-- The captured player's row in a successful move result: token `ct` reset,
the rest untouched. -/
theorem moveSuccessResult_captured_tokens (gs : GameState) (tid : String)
    (k : Nat) (t2 : Token) (cp : Option Nat) (m0 : String) (ci ct : Nat)
    (hcap : cp.bind (checkCapture gs gs.currentPlayerIndex) = some (ci, ct))
    (hci : ci ≠ gs.currentPlayerIndex) (hcilt : ci < gs.players.length) :
    ((moveSuccessResult gs tid k t2 cp m0).players.getD ci junkPlayer).tokens =
      (gs.players.getD ci junkPlayer).tokens.set ct
        (resetToken ((gs.players.getD ci junkPlayer).tokens.getD ct junkToken)) := by
  simp only [moveSuccessResult]
  have hupd := updatePlayersAfterMove_getD gs.currentPlayerIndex k t2
    (cp.bind (checkCapture gs gs.currentPlayerIndex)) gs.players 0 ci
  rw [if_pos hcilt] at hupd
  have hone : updOne gs.currentPlayerIndex k t2
      (cp.bind (checkCapture gs gs.currentPlayerIndex)) (0 + ci)
      (gs.players.getD ci junkPlayer) =
      { gs.players.getD ci junkPlayer with
          tokens := (gs.players.getD ci junkPlayer).tokens.set ct
            (resetToken ((gs.players.getD ci junkPlayer).tokens.getD ct junkToken)) } := by
    unfold updOne
    rw [if_neg (by omega), hcap]
    simp only []
    rw [if_pos (by omega)]
  split
  · rw [(finishMove_fields ..).1,
      getD_set_ne _ _ _ (fun h => hci h.symm), hupd, hone]
  · rw [(finishMove_fields ..).1, hupd, hone]

/-- C2: for every `applyMove` that lands the acting token on a main-track
cell `c` (the cell at which the code checks capture), an opposing token is
captured iff `c` is not one of the 8 fixed safe cells and some opposing
Active token not in its home stretch occupies `c`; at most one token is
captured — the first match scanning players in index order (skipping the
mover) and tokens in index order — and the captured token is reset to Base
with `position = -1`, `homeStretchPos = -1`, `stepsFromStart = 0`
(`resetToken`), while every token other than the acting one and the captured
one is unchanged. -/
theorem claim2_theorem (gs : GameState) (tid : String) (k : Nat) (t2 : Token)
    (c : Nat) (m0 : String)
    (hGO : gs.gameOver = false)
    (hpidx : gs.currentPlayerIndex < gs.players.length)
    (hfind : findIndexAux (fun t => t.id == tid) (currentPlayer gs).tokens 0 = some k)
    (hout : moveOutcome (currentPlayer gs) ((currentPlayer gs).tokens.getD k junkToken)
      gs.diceValue = some (t2, some c, m0)) :
    ((∃ pr, checkCapture gs gs.currentPlayerIndex c = some pr) ↔
      (c ∉ SAFE_SQUARES ∧ ∃ j, j < gs.players.length ∧ j ≠ gs.currentPlayerIndex ∧
        ∃ u, u < (gs.players.getD j junkPlayer).tokens.length ∧
          capMatchP (c : Int) (tokAt gs j u))) ∧
    (∀ ci ct, checkCapture gs gs.currentPlayerIndex c = some (ci, ct) →
      ci ≠ gs.currentPlayerIndex ∧ ci < gs.players.length ∧
      ct < (gs.players.getD ci junkPlayer).tokens.length ∧
      capMatchP (c : Int) (tokAt gs ci ct) ∧
      (∀ u < ct, ¬capMatchP (c : Int) (tokAt gs ci u)) ∧
      (∀ j < ci, j ≠ gs.currentPlayerIndex →
        ∀ u < (gs.players.getD j junkPlayer).tokens.length,
          ¬capMatchP (c : Int) (tokAt gs j u)) ∧
      tokAt (moveLocalToken gs tid) ci ct = resetToken (tokAt gs ci ct) ∧
      (∀ u, u ≠ ct → tokAt (moveLocalToken gs tid) ci u = tokAt gs ci u) ∧
      (∀ j, j ≠ gs.currentPlayerIndex → j ≠ ci →
        (moveLocalToken gs tid).players.getD j junkPlayer =
          gs.players.getD j junkPlayer)) ∧
    (checkCapture gs gs.currentPlayerIndex c = none →
      ∀ j, j ≠ gs.currentPlayerIndex →
        (moveLocalToken gs tid).players.getD j junkPlayer =
          gs.players.getD j junkPlayer) ∧
    (∀ u, u ≠ k → tokAt (moveLocalToken gs tid) gs.currentPlayerIndex u =
      tokAt gs gs.currentPlayerIndex u) := by
  have hbind : (some c).bind (checkCapture gs gs.currentPlayerIndex) =
      checkCapture gs gs.currentPlayerIndex c := rfl
  have hmove := moveLocalToken_success gs tid k t2 (some c) m0 hGO hfind hout
  refine ⟨?_, ?_, ?_, ?_⟩
  · -- the capture iff
    constructor
    · rintro ⟨⟨ci, ct⟩, hpr⟩
      have hsafe : c ∉ SAFE_SQUARES := by
        intro hs
        rw [checkCapture_safe _ _ _ hs] at hpr
        exact absurd hpr (by simp)
      have haux : checkCaptureAux (c : Int) gs.currentPlayerIndex gs.players 0 =
          some (ci, ct) := by
        unfold checkCapture at hpr
        rwa [if_neg hsafe] at hpr
      obtain ⟨-, hlt, hne, hfindt, -⟩ :=
        checkCaptureAux_some_spec (c : Int) gs.currentPlayerIndex gs.players 0 ci ct haux
      rw [Nat.sub_zero] at hlt hfindt
      obtain ⟨hu, hcp, -⟩ := findIndexAux_zero_some (capPred (c : Int)) junkToken _ _ hfindt
      exact ⟨hsafe, ci, hlt, hne, ct, hu, (capPred_iff _ _).mp hcp⟩
    · rintro ⟨hsafe, j, hj, hjne, u, hu, hcm⟩
      cases hc : checkCapture gs gs.currentPlayerIndex c with
      | some pr => exact ⟨pr, rfl⟩
      | none =>
        exfalso
        unfold checkCapture at hc
        rw [if_neg hsafe] at hc
        exact ((checkCaptureAux_none_iff (c : Int) gs.currentPlayerIndex gs.players 0).mp
          hc j hj (by omega) u hu) hcm
  · -- the captured-token clause
    intro ci ct hc
    have hsafe : c ∉ SAFE_SQUARES := by
      intro hs
      rw [checkCapture_safe _ _ _ hs] at hc
      exact absurd hc (by simp)
    have haux : checkCaptureAux (c : Int) gs.currentPlayerIndex gs.players 0 =
        some (ci, ct) := by
      unfold checkCapture at hc
      rwa [if_neg hsafe] at hc
    obtain ⟨-, hlt, hne, hfindt, hmino⟩ :=
      checkCaptureAux_some_spec (c : Int) gs.currentPlayerIndex gs.players 0 ci ct haux
    rw [Nat.sub_zero] at hlt hfindt
    simp only [Nat.sub_zero, Nat.zero_add] at hmino
    obtain ⟨hu, hcp, hminu⟩ := findIndexAux_zero_some (capPred (c : Int)) junkToken _ _ hfindt
    have hcap : (some c).bind (checkCapture gs gs.currentPlayerIndex) = some (ci, ct) := by
      rw [hbind, hc]
    refine ⟨hne, hlt, hu, (capPred_iff _ _).mp hcp, ?_, ?_, ?_, ?_, ?_⟩
    · intro u' hu' hcm
      have hfalse := hminu u' hu'
      have htrue : capPred (c : Int)
          ((gs.players.getD ci junkPlayer).tokens.getD u' junkToken) = true :=
        (capPred_iff _ _).mpr hcm
      rw [htrue] at hfalse
      exact absurd hfalse (by decide)
    · intro j hjlt hjne u' hu' hcm
      have hnone := hmino j hjlt hjne
      have hfalse := findIndexAux_zero_none (capPred (c : Int)) _ hnone
        ((gs.players.getD j junkPlayer).tokens.getD u' junkToken)
        (by rw [List.getD_eq_getElem _ _ hu']
            exact List.getElem_mem _)
      have htrue : capPred (c : Int)
          ((gs.players.getD j junkPlayer).tokens.getD u' junkToken) = true :=
        (capPred_iff _ _).mpr hcm
      rw [htrue] at hfalse
      exact absurd hfalse (by decide)
    · unfold tokAt
      rw [hmove, moveSuccessResult_captured_tokens gs tid k t2 (some c) m0 ci ct hcap hne hlt,
        getD_set_self _ _ _ _ hu]
    · intro u' hu'
      unfold tokAt
      rw [hmove, moveSuccessResult_captured_tokens gs tid k t2 (some c) m0 ci ct hcap hne hlt,
        getD_set_ne _ _ _ (fun h => hu' h.symm)]
    · intro j hjp hjc
      rw [hmove]
      exact moveSuccessResult_players_getD_other gs tid k t2 (some c) m0 j hjp
        (fun ci' ct' h => by
          rw [hcap] at h
          simp only [Option.some_inj, Prod.mk.injEq] at h
          omega)
  · -- no capture: every opposing player untouched
    intro hc j hjp
    rw [hmove]
    exact moveSuccessResult_players_getD_other gs tid k t2 (some c) m0 j hjp
      (fun ci' ct' h => by
        rw [hbind, hc] at h
        exact absurd h (by simp))
  · -- the mover's other tokens are untouched
    intro u hu
    unfold tokAt
    rw [hmove, moveSuccessResult_mover_tokens gs tid k t2 (some c) m0 hpidx]
    exact getD_set_ne _ _ _ (fun h => hu h.symm)

/-- State for the C2 witness: red's token 0 on cell 3 with a rolled 2 moves
to cell 5 (not safe), where green's token 0 sits. -/
def c2wit : GameState :=
  demoState
    [⟨"red_0", .active, 3, -1, 3⟩, ⟨"red_1", .base, -1, -1, 0⟩,
     ⟨"red_2", .base, -1, -1, 0⟩, ⟨"red_3", .base, -1, -1, 0⟩]
    [⟨"green_0", .active, 5, -1, 44⟩, ⟨"green_1", .base, -1, -1, 0⟩,
     ⟨"green_2", .base, -1, -1, 0⟩, ⟨"green_3", .base, -1, -1, 0⟩]
    (some 2)

/-- C2 witness: `claim2_theorem` applied to `c2wit` — green's token 0 is
captured (reset to Base) and every other token of both players is
unchanged. -/
theorem claim2_witness :
    (∃ pr, checkCapture c2wit 0 5 = some pr) ∧
    tokAt (moveLocalToken c2wit "red_0") 1 0 = resetToken (tokAt c2wit 1 0) ∧
    (∀ u, u ≠ 0 → tokAt (moveLocalToken c2wit "red_0") 1 u = tokAt c2wit 1 u) ∧
    (∀ u, u ≠ 0 → tokAt (moveLocalToken c2wit "red_0") 0 u = tokAt c2wit 0 u) := by
  have h := claim2_theorem c2wit "red_0" 0 ⟨"red_0", .active, 5, -1, 5⟩ 5
    "Red moves a token 2 spaces." (by decide) (by decide) (by decide) (by decide)
  have hc : checkCapture c2wit 0 5 = some (1, 0) := by decide
  exact ⟨⟨(1, 0), hc⟩, (h.2.1 1 0 hc).2.2.2.2.2.2.1,
    (h.2.1 1 0 hc).2.2.2.2.2.2.2.1, h.2.2.2⟩

/-! ## Step relation and reachability -/

/-- One engine operation: a dice roll (with the drawn value in 1–6) or a
move request for an arbitrary token id. -/
inductive AStep : GameState → GameState → Prop where
  | roll (gs : GameState) (d : Nat) (h1 : 1 ≤ d) (h6 : d ≤ 6) :
      AStep gs (rollLocalDice gs d)
  | move (gs : GameState) (tid : String) : AStep gs (moveLocalToken gs tid)

/-- States reachable from some `createGame` result by engine operations. -/
inductive AReachable : GameState → Prop where
  | init (gid : String) (cfg : CreateConfig) : AReachable (createLocalGame gid cfg)
  | step (s s' : GameState) (h : AReachable s) (hs : AStep s s') : AReachable s'

/-- Every `moveLocalToken` call either rejects (message-only change) or goes
through `moveSuccessResult`. -/
theorem moveLocalToken_rejected_or_success (gs : GameState) (tid : String) :
    (∃ m, moveLocalToken gs tid = { gs with message := m }) ∨
    ∃ k t2 cp m0, gs.gameOver = false ∧
      findIndexAux (fun t => t.id == tid) (currentPlayer gs).tokens 0 = some k ∧
      moveOutcome (currentPlayer gs) ((currentPlayer gs).tokens.getD k junkToken)
        gs.diceValue = some (t2, cp, m0) ∧
      moveLocalToken gs tid = moveSuccessResult gs tid k t2 cp m0 := by
  by_cases hGO : gs.gameOver
  · exact Or.inl ⟨_, moveLocalToken_gameOver gs tid hGO⟩
  · have hGO' : gs.gameOver = false := by simpa using hGO
    cases hfind : findIndexAux (fun t => t.id == tid) (currentPlayer gs).tokens 0 with
    | none => exact Or.inl ⟨_, moveLocalToken_invalid gs tid hGO' hfind⟩
    | some k =>
      cases hout : moveOutcome (currentPlayer gs)
          ((currentPlayer gs).tokens.getD k junkToken) gs.diceValue with
      | none => exact Or.inl ⟨_, moveLocalToken_cannot gs tid k hGO' hfind hout⟩
      | some r =>
        obtain ⟨t2, cp, m0⟩ := r
        refine Or.inr ⟨k, t2, cp, m0, hGO', rfl, hout, ?_⟩
        exact moveLocalToken_success gs tid k t2 cp m0 hGO' hfind hout

/-- The per-player map body never touches `hasFinished`. -/
theorem updOne_hasFinished (pidx k : Nat) (tok : Token)
    (cap : Option (Nat × Nat)) (i : Nat) (p : Player) :
    (updOne pidx k tok cap i p).hasFinished = p.hasFinished := by
  unfold updOne
  split
  · rfl
  · cases cap with
    | none => rfl
    | some pr =>
      cases pr with
      | mk ci ct =>
        simp only []
        split
        · rfl
        · rfl

theorem moveSuccessResult_hasFinished_mono (gs : GameState) (tid : String)
    (k : Nat) (t2 : Token) (cp : Option Nat) (m0 : String) (i : Nat)
    (h : (gs.players.getD i junkPlayer).hasFinished = true) :
    ((moveSuccessResult gs tid k t2 cp m0).players.getD i junkPlayer).hasFinished =
      true := by
  have hlt : i < gs.players.length := by
    by_contra hge
    rw [List.getD_eq_default _ _ (by omega)] at h
    exact absurd h (by decide)
  have hnp : ((updatePlayersAfterMove gs.currentPlayerIndex k t2
      (cp.bind (checkCapture gs gs.currentPlayerIndex)) gs.players 0).getD i
      junkPlayer).hasFinished = true := by
    rw [updatePlayersAfterMove_getD, if_pos hlt, updOne_hasFinished]
    exact h
  have hlen := updatePlayersAfterMove_length gs.currentPlayerIndex k t2
    (cp.bind (checkCapture gs gs.currentPlayerIndex)) gs.players 0
  simp only [moveSuccessResult]
  split
  · rw [(finishMove_fields ..).1]
    by_cases hip : i = gs.currentPlayerIndex
    · rw [hip, getD_set_self _ _ _ _ (by omega)]
    · rw [getD_set_ne _ _ _ (fun hh => hip hh.symm)]
      exact hnp
  · rw [(finishMove_fields ..).1]
    exact hnp

/-- `moveLocalToken` never clears a `hasFinished` flag. -/
theorem hasFinished_mono_move (gs : GameState) (tid : String) (i : Nat)
    (h : (gs.players.getD i junkPlayer).hasFinished = true) :
    ((moveLocalToken gs tid).players.getD i junkPlayer).hasFinished = true := by
  rcases moveLocalToken_rejected_or_success gs tid with ⟨m, hm⟩ | ⟨k, t2, cp, m0, _, _, _, hm⟩
  · rw [hm]; exact h
  · rw [hm]; exact moveSuccessResult_hasFinished_mono gs tid k t2 cp m0 i h

/-- Every `rollLocalDice` call either leaves players, game-over flag and
finish order untouched, or defers to an auto-applied `moveLocalToken` on a
dice-carrying variant of the input state whose single valid move it plays. -/
theorem rollProceed_cases (gs : GameState) (d : Nat) (ns : GameState) :
    ((rollProceed gs d ns).players = ns.players ∧
     (rollProceed gs d ns).gameOver = ns.gameOver ∧
     (rollProceed gs d ns).finishOrder = ns.finishOrder) ∨
    ∃ m, getValidMovesLocal ns = [m] ∧
      rollProceed gs d ns = moveLocalToken ns m.tokenId := by
  unfold rollProceed
  cases hvm : getValidMovesLocal ns with
  | nil =>
    simp only [hvm]
    split
    · exact Or.inl ⟨by trivial, by trivial, by trivial⟩
    · exact Or.inl ⟨by trivial, by trivial, by trivial⟩
  | cons m rest =>
    cases rest with
    | nil =>
      simp only [hvm]
      exact Or.inr ⟨m, rfl, rfl⟩
    | cons m2 rest2 =>
      simp only [hvm]
      exact Or.inl ⟨by trivial, by trivial, by trivial⟩

theorem rollLocalDice_cases (gs : GameState) (d : Nat) :
    ((rollLocalDice gs d).players = gs.players ∧
     (rollLocalDice gs d).gameOver = gs.gameOver ∧
     (rollLocalDice gs d).finishOrder = gs.finishOrder) ∨
    ∃ ns m, ns.players = gs.players ∧ ns.gameOver = gs.gameOver ∧
      ns.finishOrder = gs.finishOrder ∧ ns.currentPlayerIndex = gs.currentPlayerIndex ∧
      getValidMovesLocal ns = [m] ∧
      rollLocalDice gs d = moveLocalToken ns m.tokenId := by
  unfold rollLocalDice
  split
  · exact Or.inl ⟨rfl, rfl, rfl⟩
  · split
    · exact Or.inl ⟨rfl, rfl, rfl⟩
    · split
      · exact Or.inl ⟨rfl, rfl, rfl⟩
      · dsimp only
        by_cases hd6 : d = 6
        · rw [if_pos hd6]
          rcases rollProceed_cases gs d
              { gs with
                  diceValue := some d
                  diceRolled := true
                  consecutiveSixes := gs.consecutiveSixes + 1
                  hasExtraTurn := true } with ⟨h1, h2, h3⟩ | ⟨m, hvm, heq⟩
          · exact Or.inl ⟨h1, h2, h3⟩
          · exact Or.inr ⟨{ gs with diceValue := some d, diceRolled := true, consecutiveSixes := gs.consecutiveSixes + 1, hasExtraTurn := true }, m, rfl, rfl, rfl, rfl, hvm, heq⟩
        · rw [if_neg hd6]
          rcases rollProceed_cases gs d
              { gs with
                  diceValue := some d
                  diceRolled := true
                  consecutiveSixes := 0
                  hasExtraTurn := false } with ⟨h1, h2, h3⟩ | ⟨m, hvm, heq⟩
          · exact Or.inl ⟨h1, h2, h3⟩
          · exact Or.inr ⟨{ gs with diceValue := some d, diceRolled := true, consecutiveSixes := 0, hasExtraTurn := false }, m, rfl, rfl, rfl, rfl, hvm, heq⟩

/-! ## Claim C6 -/

/-- Setting token `k` to a Home token while all other slots are Home makes
the `every(t => t.state === HOME)` check succeed. -/
theorem all_home_set (l : List Token) (k : Nat) (t2 : Token)
    (h2 : t2.state = .home)
    (hothers : ∀ u < l.length, u ≠ k → (l.getD u junkToken).state = .home) :
    ((l.set k t2).all fun t => t.state == TokenState.home) = true := by
  rw [List.all_eq_true]
  intro t ht
  obtain ⟨u, hu, rfl⟩ := List.mem_iff_getElem.mp ht
  rw [List.getElem_set]
  split
  · simpa [beq_iff_eq] using h2
  · have hul : u < l.length := by simpa using hu
    have := hothers u hul (by omega)
    rw [List.getD_eq_getElem _ _ hul] at this
    simpa [beq_iff_eq] using this

/-- `moveLocalToken` preserves the invariant "a non-empty finish order
implies game over" (in contrapositive form). -/
theorem inv_move (gs : GameState) (tid : String)
    (ih : gs.gameOver = false → gs.finishOrder = []) :
    (moveLocalToken gs tid).gameOver = false →
      (moveLocalToken gs tid).finishOrder = [] := by
  rcases moveLocalToken_rejected_or_success gs tid with
    ⟨m, hm⟩ | ⟨k, t2, cp, m0, hGO, hfind, hout, hm⟩
  · rw [hm]; intro h; exact ih h
  · rw [hm]
    simp only [moveSuccessResult]
    split
    · intro hgo
      rw [(finishMove_fields ..).2.2.2.2.2.1] at hgo
      exfalso
      have hfo : gs.finishOrder = [] := ih hGO
      rw [hfo] at hgo
      simp at hgo
    · intro _
      rw [(finishMove_fields ..).2.2.2.2.2.2.2.1]
      exact ih hGO

/-- A successful capture-free move whose moved token is Home, while all the
mover's other tokens are Home, takes the first-finisher branch. -/
theorem moveSuccessResult_finish (gs : GameState) (tid : String) (k : Nat)
    (t2 : Token) (m0 : String)
    (hpidx : gs.currentPlayerIndex < gs.players.length)
    (h2 : t2.state = .home)
    (hothers : ∀ u < (currentPlayer gs).tokens.length, u ≠ k →
      ((currentPlayer gs).tokens.getD u junkToken).state = .home)
    (hnf : (currentPlayer gs).hasFinished = false)
    (hfo : gs.finishOrder = []) :
    ((moveSuccessResult gs tid k t2 none m0).players.getD gs.currentPlayerIndex
      junkPlayer).hasFinished = true ∧
    (moveSuccessResult gs tid k t2 none m0).finishOrder = [gs.currentPlayerIndex] ∧
    (moveSuccessResult gs tid k t2 none m0).gameOver = true ∧
    (moveSuccessResult gs tid k t2 none m0).winner = some gs.currentPlayerIndex := by
  simp only [moveSuccessResult]
  have hb : (none : Option Nat).bind (checkCapture gs gs.currentPlayerIndex) = none := rfl
  rw [hb]
  have hlen := updatePlayersAfterMove_length gs.currentPlayerIndex k t2 none gs.players 0
  have hup : (updatePlayersAfterMove gs.currentPlayerIndex k t2 none
      gs.players 0).getD gs.currentPlayerIndex junkPlayer =
      { currentPlayer gs with tokens := (currentPlayer gs).tokens.set k t2 } := by
    rw [updatePlayersAfterMove_getD, if_pos hpidx]
    unfold updOne
    rw [if_pos (by omega)]
    rfl
  rw [hup]
  have hcond1 : (({ currentPlayer gs with
      tokens := (currentPlayer gs).tokens.set k t2 } : Player).tokens.all
      fun t => t.state == TokenState.home) = true :=
    all_home_set _ _ _ h2 hothers
  rw [if_pos ⟨hcond1, hnf⟩]
  refine ⟨?_, ?_, ?_, ?_⟩
  · rw [(finishMove_fields ..).1, getD_set_self _ _ _ _ (by omega)]
  · rw [(finishMove_fields ..).2.2.2.2.2.2.2.1, hfo]
    rfl
  · rw [(finishMove_fields ..).2.2.2.2.2.1, hfo]
    simp
  · rw [(finishMove_fields ..).2.2.2.2.2.2.1, hfo]
    simp

/-- C6: (i) when an `applyMove` takes the mover's last non-Home token to
Home (its other three tokens already Home) and the mover is not yet marked
finished, the returned state marks the mover `hasFinished`, appends the
mover to the (previously empty) finish order, sets `gameOver = true` and
`winner` to the mover's index; (ii) no engine operation ever clears a
`hasFinished` flag; (iii) in every reachable state that is not game-over the
finish order is empty — so the first finisher always triggers (i)'s
first-finisher-wins outcome. -/
theorem claim6_theorem :
    (∀ gs tid k d,
      gs.gameOver = false →
      gs.currentPlayerIndex < gs.players.length →
      findIndexAux (fun t => t.id == tid) (currentPlayer gs).tokens 0 = some k →
      gs.diceValue = some d →
      ((currentPlayer gs).tokens.getD k junkToken).state = .active →
      ((currentPlayer gs).tokens.getD k junkToken).stepsFromStart + d = 58 →
      (∀ u < (currentPlayer gs).tokens.length, u ≠ k →
        ((currentPlayer gs).tokens.getD u junkToken).state = .home) →
      (currentPlayer gs).hasFinished = false →
      gs.finishOrder = [] →
      ((moveLocalToken gs tid).players.getD gs.currentPlayerIndex
        junkPlayer).hasFinished = true ∧
      (moveLocalToken gs tid).finishOrder = [gs.currentPlayerIndex] ∧
      (moveLocalToken gs tid).gameOver = true ∧
      (moveLocalToken gs tid).winner = some gs.currentPlayerIndex) ∧
    (∀ s s', AStep s s' → ∀ i,
      (s.players.getD i junkPlayer).hasFinished = true →
      (s'.players.getD i junkPlayer).hasFinished = true) ∧
    (∀ s, AReachable s → s.gameOver = false → s.finishOrder = []) := by
  refine ⟨?_, ?_, ?_⟩
  · intro gs tid k d hGO hpidx hfind hdice hact h58 hothers hnf hfo
    have hout2 : moveOutcome (currentPlayer gs)
        ((currentPlayer gs).tokens.getD k junkToken) gs.diceValue =
        some ({ (currentPlayer gs).tokens.getD k junkToken with
                  state := .home, position := -1, homeStretchPos := -1,
                  stepsFromStart :=
                    ((currentPlayer gs).tokens.getD k junkToken).stepsFromStart + d },
              none, (currentPlayer gs).name ++ "'s token reached HOME!") := by
      rw [hdice]
      exact moveOutcome_active_home _ _ d hact h58
    rw [moveLocalToken_success gs tid k _ none _ hGO hfind hout2]
    exact moveSuccessResult_finish gs tid k _ _ hpidx rfl hothers hnf hfo
  · intro s s' hstep i hfin
    cases hstep with
    | move tid => exact hasFinished_mono_move s tid i hfin
    | roll d h1 h6 =>
      rcases rollLocalDice_cases s d with ⟨hp, _, _⟩ | ⟨ns, m, hnsp, _, _, _, hvm, heq⟩
      · rw [hp]; exact hfin
      · rw [heq]
        exact hasFinished_mono_move ns m.tokenId i (by rw [hnsp]; exact hfin)
  · intro s hreach
    induction hreach with
    | init gid cfg => intro _; rfl
    | step s1 s2 hr hstep ih =>
      cases hstep with
      | move tid => exact inv_move s1 tid ih
      | roll d h1 h6 =>
        rcases rollLocalDice_cases s1 d with ⟨_, hg, hf⟩ | ⟨ns, m, _, hnsg, hnsf, _, hvm, heq⟩
        · intro h
          rw [hf]
          exact ih (by rw [← hg]; exact h)
        · rw [heq]
          exact inv_move ns m.tokenId (fun h => by
            rw [hnsf]
            exact ih (by rw [← hnsg]; exact h))

/-- State for the C6 witness: red has three tokens Home and token `red_3`
on home-stretch cell 3 (`stepsFromStart = 56`) with a rolled 2. -/
def c6wit : GameState :=
  demoState
    [⟨"red_0", .home, -1, -1, 58⟩, ⟨"red_1", .home, -1, -1, 58⟩,
     ⟨"red_2", .home, -1, -1, 58⟩, ⟨"red_3", .active, -1, 3, 56⟩]
    (baseToks "green") (some 2)

/-- State with a finished player, for the monotonicity part of the C6
witness. -/
def c6fin : GameState :=
  { demoState
      [⟨"red_0", .home, -1, -1, 58⟩, ⟨"red_1", .home, -1, -1, 58⟩,
       ⟨"red_2", .home, -1, -1, 58⟩, ⟨"red_3", .home, -1, -1, 58⟩]
      (baseToks "green") none with
    players :=
      [{ index := 0, name := "Red", color := "red", startPos := 0, homeEntryPos := 50,
         tokens := [⟨"red_0", .home, -1, -1, 58⟩, ⟨"red_1", .home, -1, -1, 58⟩,
                    ⟨"red_2", .home, -1, -1, 58⟩, ⟨"red_3", .home, -1, -1, 58⟩],
         hasFinished := true, finishOrder := 0 },
       { index := 1, name := "Green", color := "green", startPos := 13, homeEntryPos := 11,
         tokens := baseToks "green", hasFinished := false, finishOrder := -1 }]
    currentPlayerIndex := 1
    turnPhase := "roll" }

/-- C6 witness: all three parts of `claim6_theorem` applied at concrete
inputs — `red_3` finishing from `c6wit` wins the game; a roll by green in
`c6fin` keeps red's `hasFinished` flag; and freshly created games have an
empty finish order. -/
theorem claim6_witness :
    (((moveLocalToken c6wit "red_3").players.getD c6wit.currentPlayerIndex
        junkPlayer).hasFinished = true ∧
      (moveLocalToken c6wit "red_3").finishOrder = [c6wit.currentPlayerIndex] ∧
      (moveLocalToken c6wit "red_3").gameOver = true ∧
      (moveLocalToken c6wit "red_3").winner = some c6wit.currentPlayerIndex) ∧
    ((rollLocalDice c6fin 3).players.getD 0 junkPlayer).hasFinished = true ∧
    (createLocalGame "g" ⟨2, [], []⟩).finishOrder = [] :=
  ⟨claim6_theorem.1 c6wit "red_3" 3 2 (by decide) (by decide) (by decide) (by decide)
      (by decide) (by decide) (by decide) (by decide) (by decide),
   claim6_theorem.2.1 c6fin (rollLocalDice c6fin 3)
     (AStep.roll c6fin 3 (by decide) (by decide)) 0 (by decide),
   claim6_theorem.2.2 (createLocalGame "g" ⟨2, [], []⟩)
     (AReachable.init "g" ⟨2, [], []⟩) (by decide)⟩

/-! ## Claim C4 -/

/-- Token sanity: per player, token ids are distinct, and every token has
`stepsFromStart ≤ 58` with Base tokens at 0. -/
def tokensOK (gs : GameState) : Prop :=
  ∀ i < gs.players.length,
    ((gs.players.getD i junkPlayer).tokens.map Token.id).Nodup ∧
    ∀ j < (gs.players.getD i junkPlayer).tokens.length,
      (tokAt gs i j).stepsFromStart ≤ 58 ∧
      ((tokAt gs i j).state = .base → (tokAt gs i j).stepsFromStart = 0)

instance (gs : GameState) : Decidable (tokensOK gs) := by
  unfold tokensOK tokAt
  infer_instance

/-- One engine operation where any move request targets a token that
`validMoves` currently lists. -/
inductive VStep : GameState → GameState → Prop where
  | roll (gs : GameState) (d : Nat) (h1 : 1 ≤ d) (h6 : d ≤ 6) :
      VStep gs (rollLocalDice gs d)
  | move (gs : GameState) (tid : String)
      (hv : ∃ m ∈ getValidMovesLocal gs, m.tokenId = tid) :
      VStep gs (moveLocalToken gs tid)

/-- States reachable from `createGame` by rolls and valid moves. -/
inductive VReachable : GameState → Prop where
  | init (gid : String) (cfg : CreateConfig) : VReachable (createLocalGame gid cfg)
  | step (s s' : GameState) (h : VReachable s) (hs : VStep s s') : VReachable s'

theorem tokensOK_of_players_eq (s1 s2 : GameState) (h : s2.players = s1.players)
    (hok : tokensOK s1) : tokensOK s2 := by
  unfold tokensOK tokAt at *
  rw [h]
  exact hok

theorem findIndexAux_zero_some_of {α : Type} (p : α → Bool) (d : α) :
    ∀ (l : List α) (j : Nat), j < l.length → p (l.getD j d) = true →
    (∀ j' < j, p (l.getD j' d) = false) → findIndexAux p l 0 = some j := by
  intro l
  induction l with
  | nil => intro j hj; simp at hj
  | cons a rest ih =>
    intro j hj hp hmin
    cases j with
    | zero =>
      simp only [List.getD_cons_zero] at hp
      simp [findIndexAux, hp]
    | succ j1 =>
      have ha : p a = false := by simpa using hmin 0 (by omega)
      have hrest : findIndexAux p rest 0 = some j1 :=
        ih j1 (by simpa using hj) (by simpa using hp)
          (fun j' hj' => by simpa using hmin (j' + 1) (by omega))
      rw [show findIndexAux p (a :: rest) 0 =
        if p a then some 0 else findIndexAux p rest 1 from rfl, ha]
      simp only [Bool.false_eq_true, if_false]
      rw [findIndexAux_shift, hrest]
      rfl

theorem collectMoves_sound (dv : Nat) :
    ∀ (l : List Token) (i0 : Nat) (m : ValidMove), m ∈ collectMoves dv l i0 →
    ∃ j, j < l.length ∧ m.tokenIndex = i0 + j ∧
      m.tokenId = (l.getD j junkToken).id ∧ movableTok dv (l.getD j junkToken) := by
  intro l
  induction l with
  | nil => intro i0 m hm; simp [collectMoves] at hm
  | cons t rest ih =>
    intro i0 m hm
    unfold collectMoves at hm
    cases hst : t.state with
    | home =>
      rw [hst] at hm
      simp only [] at hm
      obtain ⟨j, hj, h1, h2, h3⟩ := ih (i0 + 1) m hm
      exact ⟨j + 1, by simpa using Nat.succ_lt_succ hj, by omega, by simpa using h2,
        by simpa using h3⟩
    | base =>
      rw [hst] at hm
      simp only [] at hm
      by_cases hd : dv = 6
      · rw [if_pos hd] at hm
        rcases List.mem_cons.mp hm with hm | hm
        · subst hm
          exact ⟨0, by simp, by simp, by simp, Or.inl ⟨by simpa using hst, hd⟩⟩
        · obtain ⟨j, hj, h1, h2, h3⟩ := ih (i0 + 1) m hm
          exact ⟨j + 1, by simpa using Nat.succ_lt_succ hj, by omega,
            by simpa using h2, by simpa using h3⟩
      · rw [if_neg hd] at hm
        obtain ⟨j, hj, h1, h2, h3⟩ := ih (i0 + 1) m hm
        exact ⟨j + 1, by simpa using Nat.succ_lt_succ hj, by omega,
          by simpa using h2, by simpa using h3⟩
    | active =>
      rw [hst] at hm
      simp only [] at hm
      by_cases hb : t.stepsFromStart + dv ≤ BOARD_SIZE + HOME_STRETCH_LENGTH + 1
      · rw [if_pos hb] at hm
        rcases List.mem_cons.mp hm with hm | hm
        · subst hm
          exact ⟨0, by simp, by simp, by simp, Or.inr ⟨by simpa using hst, by simpa using hb⟩⟩
        · obtain ⟨j, hj, h1, h2, h3⟩ := ih (i0 + 1) m hm
          exact ⟨j + 1, by simpa using Nat.succ_lt_succ hj, by omega,
            by simpa using h2, by simpa using h3⟩
      · rw [if_neg hb] at hm
        obtain ⟨j, hj, h1, h2, h3⟩ := ih (i0 + 1) m hm
        exact ⟨j + 1, by simpa using Nat.succ_lt_succ hj, by omega,
          by simpa using h2, by simpa using h3⟩

theorem validMove_elim (gs : GameState) (m : ValidMove)
    (hm : m ∈ getValidMovesLocal gs) :
    ∃ dv, gs.diceValue = some dv ∧ m ∈ collectMoves dv (currentPlayer gs).tokens 0 := by
  unfold getValidMovesLocal at hm
  cases hd : gs.diceValue with
  | none => rw [hd] at hm; simp at hm
  | some dv =>
    rw [hd] at hm
    simp only [] at hm
    by_cases h0 : dv = 0
    · rw [if_pos h0] at hm; simp at hm
    · rw [if_neg h0] at hm
      exact ⟨dv, rfl, hm⟩

theorem map_id_set : ∀ (l : List Token) (k : Nat) (t2 : Token),
    t2.id = (l.getD k junkToken).id →
    (l.set k t2).map Token.id = l.map Token.id := by
  intro l
  induction l with
  | nil => intro k t2 _; rfl
  | cons a rest ih =>
    intro k t2 hid
    cases k with
    | zero =>
      simp only [List.getD_cons_zero] at hid
      simp [List.set, hid]
    | succ k1 =>
      simp only [List.getD_cons_succ] at hid
      simp only [List.set, List.map_cons]
      rw [ih k1 t2 hid]

theorem append_right_ne (a : String) {b c : String} (h : b ≠ c) :
    a ++ b ≠ a ++ c := by
  intro he
  apply h
  apply String.ext
  have hd := congrArg String.data he
  rw [show (a ++ b).data = a.data ++ b.data from rfl,
    show (a ++ c).data = a.data ++ c.data from rfl] at hd
  exact List.append_cancel_left hd

theorem mkTokens_ids_nodup (c : String) : ((mkTokens c).map Token.id).Nodup := by
  show ([c ++ "_" ++ "0", c ++ "_" ++ "1", c ++ "_" ++ "2", c ++ "_" ++ "3"] :
    List String).Nodup
  refine List.nodup_cons.mpr ⟨?_, List.nodup_cons.mpr ⟨?_,
    List.nodup_cons.mpr ⟨?_, List.nodup_singleton _⟩⟩⟩
  · intro hmem
    rcases List.mem_cons.mp hmem with h | hmem
    · exact append_right_ne _ (by decide) h
    · rcases List.mem_cons.mp hmem with h | hmem
      · exact append_right_ne _ (by decide) h
      · rcases List.mem_cons.mp hmem with h | hmem
        · exact append_right_ne _ (by decide) h
        · simp at hmem
  · intro hmem
    rcases List.mem_cons.mp hmem with h | hmem
    · exact append_right_ne _ (by decide) h
    · rcases List.mem_cons.mp hmem with h | hmem
      · exact append_right_ne _ (by decide) h
      · simp at hmem
  · intro hmem
    rcases List.mem_cons.mp hmem with h | hmem
    · exact append_right_ne _ (by decide) h
    · simp at hmem

theorem moveSuccessResult_players_length (gs : GameState) (tid : String)
    (k : Nat) (t2 : Token) (cp : Option Nat) (m0 : String) :
    (moveSuccessResult gs tid k t2 cp m0).players.length = gs.players.length := by
  simp only [moveSuccessResult]
  split
  · rw [(finishMove_fields ..).1, List.length_set, updatePlayersAfterMove_length]
  · rw [(finishMove_fields ..).1, updatePlayersAfterMove_length]

/-- Row-level effect of a successful move: each player row is untouched, or
is the mover's row with token `k` replaced, or is the captured player's row
with token `ct` reset. -/
theorem moveSuccessResult_row (gs : GameState) (tid : String) (k : Nat)
    (t2 : Token) (cp : Option Nat) (m0 : String) (i : Nat) :
    (moveSuccessResult gs tid k t2 cp m0).players.getD i junkPlayer =
      gs.players.getD i junkPlayer ∨
    (i = gs.currentPlayerIndex ∧
      ((moveSuccessResult gs tid k t2 cp m0).players.getD i junkPlayer).tokens =
        (gs.players.getD i junkPlayer).tokens.set k t2) ∨
    (∃ ci ct, cp.bind (checkCapture gs gs.currentPlayerIndex) = some (ci, ct) ∧
      i = ci ∧ i ≠ gs.currentPlayerIndex ∧
      ((moveSuccessResult gs tid k t2 cp m0).players.getD i junkPlayer).tokens =
        (gs.players.getD i junkPlayer).tokens.set ct
          (resetToken ((gs.players.getD i junkPlayer).tokens.getD ct junkToken))) := by
  by_cases hilen : i < gs.players.length
  · by_cases hip : i = gs.currentPlayerIndex
    · refine Or.inr (Or.inl ⟨hip, ?_⟩)
      rw [hip]
      exact moveSuccessResult_mover_tokens gs tid k t2 cp m0 (by omega)
    · cases hc : cp.bind (checkCapture gs gs.currentPlayerIndex) with
      | none =>
        refine Or.inl (moveSuccessResult_players_getD_other gs tid k t2 cp m0 i hip ?_)
        intro ci ct h
        rw [hc] at h
        exact absurd h (by simp)
      | some pr =>
        obtain ⟨ci, ct⟩ := pr
        by_cases hic : i = ci
        · refine Or.inr (Or.inr ⟨ci, ct, rfl, hic, hip, ?_⟩)
          rw [hic]
          have hcine : ci ≠ gs.currentPlayerIndex := by omega
          exact moveSuccessResult_captured_tokens gs tid k t2 cp m0 ci ct hc hcine
            (by omega)
        · refine Or.inl (moveSuccessResult_players_getD_other gs tid k t2 cp m0 i hip ?_)
          intro ci' ct' h
          rw [hc] at h
          simp only [Option.some_inj, Prod.mk.injEq] at h
          omega
  · left
    rw [List.getD_eq_default _ _ (by rw [moveSuccessResult_players_length]; omega),
      List.getD_eq_default _ _ (by omega)]

/-- Token-level effect of a successful move. -/
theorem tokAt_moveSuccessResult_cases (gs : GameState) (tid : String) (k : Nat)
    (t2 : Token) (cp : Option Nat) (m0 : String) (i u : Nat) :
    tokAt (moveSuccessResult gs tid k t2 cp m0) i u = tokAt gs i u ∨
    (i = gs.currentPlayerIndex ∧ u = k ∧
      tokAt (moveSuccessResult gs tid k t2 cp m0) i u = t2) ∨
    (∃ ci ct, cp.bind (checkCapture gs gs.currentPlayerIndex) = some (ci, ct) ∧
      i = ci ∧ u = ct ∧
      tokAt (moveSuccessResult gs tid k t2 cp m0) i u =
        resetToken (tokAt gs i u)) := by
  rcases moveSuccessResult_row gs tid k t2 cp m0 i with hrow | ⟨hip, hrow⟩ |
    ⟨ci, ct, hc, hic, _, hrow⟩
  · left
    unfold tokAt
    rw [hrow]
  · by_cases huk : u = k
    · by_cases hklen : k < (gs.players.getD i junkPlayer).tokens.length
      · refine Or.inr (Or.inl ⟨hip, huk, ?_⟩)
        unfold tokAt
        rw [hrow, huk]
        exact getD_set_self _ _ _ _ hklen
      · left
        unfold tokAt
        rw [hrow, List.set_eq_of_length_le (by omega)]
    · left
      unfold tokAt
      rw [hrow]
      exact getD_set_ne _ _ _ (fun h => huk h.symm)
  · by_cases huc : u = ct
    · by_cases hclen : ct < (gs.players.getD i junkPlayer).tokens.length
      · refine Or.inr (Or.inr ⟨ci, ct, hc, hic, huc, ?_⟩)
        unfold tokAt
        rw [hrow, huc]
        exact getD_set_self _ _ _ _ hclen
      · refine Or.inr (Or.inr ⟨ci, ct, hc, hic, huc, ?_⟩)
        unfold tokAt
        rw [hrow, List.set_eq_of_length_le (by omega), huc,
          List.getD_eq_default _ _ (by omega)]
        rfl
    · left
      unfold tokAt
      rw [hrow]
      exact getD_set_ne _ _ _ (fun h => huc h.symm)

/-- Per-row token-list lengths after a successful move. -/
theorem moveSuccessResult_row_length (gs : GameState) (tid : String) (k : Nat)
    (t2 : Token) (cp : Option Nat) (m0 : String) (i : Nat) :
    ((moveSuccessResult gs tid k t2 cp m0).players.getD i junkPlayer).tokens.length =
      (gs.players.getD i junkPlayer).tokens.length := by
  rcases moveSuccessResult_row gs tid k t2 cp m0 i with hrow | ⟨_, hrow⟩ |
    ⟨_, _, _, _, _, hrow⟩
  · rw [hrow]
  · rw [hrow, List.length_set]
  · rw [hrow, List.length_set]

/-- Per-row id multisets after a successful move, provided the moved token
keeps its id. -/
theorem moveSuccessResult_row_ids (gs : GameState) (tid : String) (k : Nat)
    (t2 : Token) (cp : Option Nat) (m0 : String) (i : Nat)
    (hid : t2.id = (tokAt gs gs.currentPlayerIndex k).id) :
    ((moveSuccessResult gs tid k t2 cp m0).players.getD i junkPlayer).tokens.map
        Token.id =
      (gs.players.getD i junkPlayer).tokens.map Token.id := by
  rcases moveSuccessResult_row gs tid k t2 cp m0 i with hrow | ⟨hip, hrow⟩ |
    ⟨_, _, _, _, _, hrow⟩
  · rw [hrow]
  · rw [hrow]
    exact map_id_set _ _ _ (by rw [hid, hip]; rfl)
  · rw [hrow]
    exact map_id_set _ _ _ rfl

theorem mkTokens_getD_steps (c : String) (j : Nat) :
    ((mkTokens c).getD j junkToken).stepsFromStart = 0 := by
  match j with
  | 0 => rfl
  | 1 => rfl
  | 2 => rfl
  | 3 => rfl
  | n + 4 =>
    rw [List.getD_eq_default _ _ (by show 4 ≤ n + 4; omega)]
    rfl

theorem tokensOK_create (gid : String) (cfg : CreateConfig) :
    tokensOK (createLocalGame gid cfg) := by
  intro i hi
  have hp : (createLocalGame gid cfg).players.getD i junkPlayer = mkPlayer cfg i := by
    rw [List.getD_eq_getElem _ _ hi]
    simp [createLocalGame]
  constructor
  · rw [hp]
    exact mkTokens_ids_nodup _
  · intro j hj
    unfold tokAt
    rw [hp]
    have h0 : ((mkPlayer cfg i).tokens.getD j junkToken).stepsFromStart = 0 :=
      mkTokens_getD_steps _ j
    exact ⟨by rw [h0]; omega, fun _ => h0⟩

/-- A successful move with a well-behaved moved token preserves `tokensOK`
and is per-token monotone except for the capture reset. -/
theorem move_success_preserves (gs : GameState) (tid : String) (k : Nat)
    (t2 : Token) (cp : Option Nat) (m0 : String)
    (hok : tokensOK gs)
    (hmove : moveLocalToken gs tid = moveSuccessResult gs tid k t2 cp m0)
    (hid : t2.id = (tokAt gs gs.currentPlayerIndex k).id)
    (hle : t2.stepsFromStart ≤ 58)
    (hbz : t2.state = .base → t2.stepsFromStart = 0)
    (hmono : (tokAt gs gs.currentPlayerIndex k).stepsFromStart ≤ t2.stepsFromStart) :
    tokensOK (moveLocalToken gs tid) ∧
    ∀ i u, (tokAt gs i u).stepsFromStart ≤
        (tokAt (moveLocalToken gs tid) i u).stepsFromStart ∨
      ((tokAt (moveLocalToken gs tid) i u).stepsFromStart = 0 ∧
        (tokAt (moveLocalToken gs tid) i u).state = TokenState.base) := by
  rw [hmove]
  constructor
  · intro i hi
    have hi' : i < gs.players.length := by
      rw [moveSuccessResult_players_length] at hi
      exact hi
    obtain ⟨hnd, hbounds⟩ := hok i hi'
    constructor
    · rw [moveSuccessResult_row_ids gs tid k t2 cp m0 i hid]
      exact hnd
    · intro j hj
      have hj' : j < (gs.players.getD i junkPlayer).tokens.length := by
        rw [moveSuccessResult_row_length] at hj
        exact hj
      rcases tokAt_moveSuccessResult_cases gs tid k t2 cp m0 i j with
        hcase | ⟨hip, huk, hcase⟩ | ⟨ci, ct, _, _, _, hcase⟩
      · rw [hcase]
        exact hbounds j hj'
      · rw [hcase]
        exact ⟨hle, hbz⟩
      · rw [hcase]
        exact ⟨Nat.zero_le 58, fun _ => rfl⟩
  · intro i u
    rcases tokAt_moveSuccessResult_cases gs tid k t2 cp m0 i u with
      hcase | ⟨hip, huk, hcase⟩ | ⟨ci, ct, _, _, _, hcase⟩
    · left
      rw [hcase]
    · left
      rw [hcase, hip, huk]
      exact hmono
    · right
      rw [hcase]
      exact ⟨rfl, rfl⟩

/-- A `validMoves`-sanctioned move preserves `tokensOK` and is per-token
monotone except for the capture reset. -/
theorem move_valid_spec (gs : GameState) (tid : String) (hok : tokensOK gs)
    (hv : ∃ m ∈ getValidMovesLocal gs, m.tokenId = tid) :
    tokensOK (moveLocalToken gs tid) ∧
    ∀ i u, (tokAt gs i u).stepsFromStart ≤
        (tokAt (moveLocalToken gs tid) i u).stepsFromStart ∨
      ((tokAt (moveLocalToken gs tid) i u).stepsFromStart = 0 ∧
        (tokAt (moveLocalToken gs tid) i u).state = TokenState.base) := by
  by_cases hGO : gs.gameOver
  · rw [moveLocalToken_gameOver gs tid hGO]
    exact ⟨tokensOK_of_players_eq gs _ rfl hok, fun i u => Or.inl (Nat.le_refl _)⟩
  · have hGO' : gs.gameOver = false := by simpa using hGO
    obtain ⟨m, hm, htid⟩ := hv
    obtain ⟨dv, hdice, hcm⟩ := validMove_elim gs m hm
    obtain ⟨j, hjlen, hmidx, hmid, hmov⟩ := collectMoves_sound dv _ 0 m hcm
    have hpidx : gs.currentPlayerIndex < gs.players.length := by
      by_contra hcon
      have hjunk : currentPlayer gs = junkPlayer := by
        unfold currentPlayer
        exact List.getD_eq_default _ _ (by omega)
      rw [hjunk] at hjlen
      simp [junkPlayer] at hjlen
    obtain ⟨hnd, hbounds⟩ := hok gs.currentPlayerIndex hpidx
    have hfind : findIndexAux (fun t => t.id == tid) (currentPlayer gs).tokens 0 =
        some j := by
      apply findIndexAux_zero_some_of _ junkToken _ j hjlen
      · rw [← htid, hmid]
        simp
      · intro j' hj'
        have hj'len : j' < (currentPlayer gs).tokens.length := by omega
        have hne : ((currentPlayer gs).tokens.getD j' junkToken).id ≠
            ((currentPlayer gs).tokens.getD j junkToken).id := by
          intro he
          rw [List.getD_eq_getElem _ _ hj'len, List.getD_eq_getElem _ _ hjlen] at he
          have hmape : ((currentPlayer gs).tokens.map Token.id).get
              ⟨j', by simpa using hj'len⟩ =
              ((currentPlayer gs).tokens.map Token.id).get ⟨j, by simpa using hjlen⟩ := by
            simpa [List.get_eq_getElem, List.getElem_map] using he
          rw [List.get_eq_getElem, List.get_eq_getElem] at hmape
          have hfin := (List.Nodup.getElem_inj_iff hnd).mp hmape
          simp at hfin
          omega
        rw [← htid, hmid]
        simpa [beq_eq_false_iff_ne] using hne
    rcases hmov with ⟨hbase, hdv6⟩ | ⟨hact, hbound⟩
    · have hout : moveOutcome (currentPlayer gs)
          ((currentPlayer gs).tokens.getD j junkToken) gs.diceValue =
          some ({ (currentPlayer gs).tokens.getD j junkToken with
                    state := .active,
                    position := ((currentPlayer gs).startPos : Int),
                    stepsFromStart := 0 },
                some (currentPlayer gs).startPos,
                (currentPlayer gs).name ++ " moves a token to the starting position.") := by
        rw [hdice, hdv6]
        exact moveOutcome_base6 _ _ hbase
      have hmove := moveLocalToken_success gs tid j _ _ _ hGO' hfind hout
      refine move_success_preserves gs tid j _ _ _ hok hmove rfl
        (by exact Nat.zero_le 58) (fun _ => rfl) ?_
      have h0 : (tokAt gs gs.currentPlayerIndex j).stepsFromStart = 0 :=
        (hbounds j hjlen).2 hbase
      exact le_of_eq h0
    · have hb58 : ((currentPlayer gs).tokens.getD j junkToken).stepsFromStart + dv ≤ 58 :=
        hbound
      rcases Nat.lt_or_ge 52 (((currentPlayer gs).tokens.getD j junkToken).stepsFromStart
          + dv) with hgt | hle52
      · rcases Nat.eq_or_lt_of_le hb58 with h58 | hlt58
        · have hout : moveOutcome (currentPlayer gs)
              ((currentPlayer gs).tokens.getD j junkToken) gs.diceValue =
              some ({ (currentPlayer gs).tokens.getD j junkToken with
                        state := .home, position := -1, homeStretchPos := -1,
                        stepsFromStart :=
                          ((currentPlayer gs).tokens.getD j junkToken).stepsFromStart + dv },
                    none, (currentPlayer gs).name ++ "'s token reached HOME!") := by
            rw [hdice]
            exact moveOutcome_active_home _ _ dv hact h58
          have hmove := moveLocalToken_success gs tid j _ _ _ hGO' hfind hout
          refine move_success_preserves gs tid j _ _ _ hok hmove rfl
            (by exact le_of_eq h58)
            (fun h => absurd (show TokenState.home = TokenState.base from h) (by decide))
            (Nat.le_add_right _ _)
        · have hout : moveOutcome (currentPlayer gs)
              ((currentPlayer gs).tokens.getD j junkToken) gs.diceValue =
              some ({ (currentPlayer gs).tokens.getD j junkToken with
                        homeStretchPos :=
                          ((((currentPlayer gs).tokens.getD j junkToken).stepsFromStart
                            + dv : Nat) : Int) - 52 - 1,
                        position := -1,
                        stepsFromStart :=
                          ((currentPlayer gs).tokens.getD j junkToken).stepsFromStart + dv },
                    none, (currentPlayer gs).name ++ " moves a token into the home stretch.") := by
            rw [hdice]
            exact moveOutcome_active_stretch _ _ dv hact (by omega) (by omega)
          have hmove := moveLocalToken_success gs tid j _ _ _ hGO' hfind hout
          refine move_success_preserves gs tid j _ _ _ hok hmove rfl
            (by exact hb58) ?_ (Nat.le_add_right _ _)
          intro h
          have hab : TokenState.active = TokenState.base := by
            rw [← hact]
            exact h
          exact absurd hab (by decide)
      · have hout : moveOutcome (currentPlayer gs)
            ((currentPlayer gs).tokens.getD j junkToken) gs.diceValue =
            some ({ (currentPlayer gs).tokens.getD j junkToken with
                      position := ((((currentPlayer gs).startPos +
                        (((currentPlayer gs).tokens.getD j junkToken).stepsFromStart + dv))
                        % 52 : Nat) : Int),
                      stepsFromStart :=
                        ((currentPlayer gs).tokens.getD j junkToken).stepsFromStart + dv },
                  some (((currentPlayer gs).startPos +
                    (((currentPlayer gs).tokens.getD j junkToken).stepsFromStart + dv)) % 52),
                  (currentPlayer gs).name ++ " moves a token " ++ toString dv ++ " spaces.") := by
          rw [hdice]
          exact moveOutcome_active_track _ _ dv hact (by omega)
        have hmove := moveLocalToken_success gs tid j _ _ _ hGO' hfind hout
        refine move_success_preserves gs tid j _ _ _ hok hmove rfl
          (by exact hb58) ?_ (Nat.le_add_right _ _)
        intro h
        have hab : TokenState.active = TokenState.base := by
          rw [← hact]
          exact h
        exact absurd hab (by decide)

/-- A roll preserves `tokensOK` and is per-token monotone except for the
capture reset of its auto-applied move. -/
theorem roll_valid_spec (gs : GameState) (d : Nat) (hok : tokensOK gs) :
    tokensOK (rollLocalDice gs d) ∧
    ∀ i u, (tokAt gs i u).stepsFromStart ≤
        (tokAt (rollLocalDice gs d) i u).stepsFromStart ∨
      ((tokAt (rollLocalDice gs d) i u).stepsFromStart = 0 ∧
        (tokAt (rollLocalDice gs d) i u).state = TokenState.base) := by
  rcases rollLocalDice_cases gs d with ⟨hp, _, _⟩ | ⟨ns, m, hnsp, _, _, _, hvm, heq⟩
  · constructor
    · exact tokensOK_of_players_eq gs _ hp hok
    · intro i u
      left
      unfold tokAt
      rw [hp]
  · have hokns : tokensOK ns := tokensOK_of_players_eq gs ns hnsp hok
    have hres := move_valid_spec ns m.tokenId hokns ⟨m, by rw [hvm]; simp, rfl⟩
    rw [heq]
    constructor
    · exact hres.1
    · intro i u
      have hev : tokAt ns i u = tokAt gs i u := by
        unfold tokAt
        rw [hnsp]
      have hmono := hres.2 i u
      rw [hev] at hmono
      exact hmono

theorem tokensOK_of_VReachable : ∀ s, VReachable s → tokensOK s := by
  intro s h
  induction h with
  | init gid cfg => exact tokensOK_create gid cfg
  | step s1 s2 hr hstep ih =>
    cases hstep with
    | roll d h1 h6 => exact (roll_valid_spec s1 d ih).1
    | move tid hv => exact (move_valid_spec s1 tid ih hv).1

/-- A real game prefix: red brings `red_0` out and to cell 17 while green
brings `green_0` to cell 22 (`stepsFromStart = 9`). -/
def c4s2 : GameState :=
  moveLocalToken (rollLocalDice (createLocalGame "g" ⟨2, [], []⟩) 6) "red_0"

/-- Continuation of `c4s2`: green's token reaches cell 19 then 22. -/
def c4s7 : GameState :=
  moveLocalToken (rollLocalDice (moveLocalToken (rollLocalDice (rollLocalDice
    c4s2 5) 6) "green_0") 6) "green_0"

/-- Continuation of `c4s7`: red reaches cell 17 with green on cell 22. -/
def c4mid : GameState :=
  moveLocalToken (rollLocalDice (moveLocalToken (rollLocalDice (rollLocalDice
    c4s7 3) 6) "red_0") 6) "red_0"

/-- Red rolls 5 from `c4mid`: the auto-move lands on cell 22 and captures
`green_0`. -/
def c4after : GameState := rollLocalDice c4mid 5

/-- C4 counterexample: along an ordinary game (every move chosen from
`validMoves`), green's token 0 has `stepsFromStart = 9` and is then
captured, resetting `stepsFromStart` to 0 — `stepsFromStart` is **not**
non-decreasing across a token's lifetime. -/
theorem claim4_counterexample :
    (tokAt c4mid 1 0).stepsFromStart = 9 ∧
    (tokAt c4after 1 0).stepsFromStart = 0 ∧
    (tokAt c4after 1 0).stepsFromStart < (tokAt c4mid 1 0).stepsFromStart := by
  decide

/-- C4 (amended): under every sequence of engine operations in which each
`applyMove` targets a token listed by `validMoves` (`VStep`/`VReachable`),
every token's `stepsFromStart` never exceeds 58, and from each state to the
next it is non-decreasing **except** that a captured token resets to 0 (and
to the Base state) — the only way it can decrease. -/
theorem claim4_theorem :
    (∀ s, VReachable s → ∀ i u, (tokAt s i u).stepsFromStart ≤ 58) ∧
    (∀ s s', VStep s s' → tokensOK s → ∀ i u,
      (tokAt s i u).stepsFromStart ≤ (tokAt s' i u).stepsFromStart ∨
      ((tokAt s' i u).stepsFromStart = 0 ∧
        (tokAt s' i u).state = TokenState.base)) := by
  constructor
  · intro s hs i u
    have hok := tokensOK_of_VReachable s hs
    by_cases hi : i < s.players.length
    · by_cases hu : u < (s.players.getD i junkPlayer).tokens.length
      · exact ((hok i hi).2 u hu).1
      · unfold tokAt
        rw [List.getD_eq_default _ _ (by omega)]
        exact Nat.zero_le 58
    · unfold tokAt
      rw [List.getD_eq_default s.players junkPlayer (by omega)]
      exact Nat.zero_le 58
  · intro s s' hstep hok i u
    cases hstep with
    | roll d h1 h6 => exact (roll_valid_spec s d hok).2 i u
    | move tid hv => exact (move_valid_spec s tid hok hv).2 i u

/-- C4 witness: `claim4_theorem` applied at the freshly created game — the
bound holds there, and a roll of 5 from it keeps token 0 of player 0
monotone (or base-reset). -/
theorem claim4_witness :
    (tokAt (createLocalGame "g" ⟨2, [], []⟩) 0 0).stepsFromStart ≤ 58 ∧
    ((tokAt (createLocalGame "g" ⟨2, [], []⟩) 0 0).stepsFromStart ≤
        (tokAt (rollLocalDice (createLocalGame "g" ⟨2, [], []⟩) 5) 0 0).stepsFromStart ∨
      ((tokAt (rollLocalDice (createLocalGame "g" ⟨2, [], []⟩) 5) 0 0).stepsFromStart = 0 ∧
        (tokAt (rollLocalDice (createLocalGame "g" ⟨2, [], []⟩) 5) 0 0).state =
          TokenState.base)) :=
  ⟨claim4_theorem.1 _ (VReachable.init "g" ⟨2, [], []⟩) 0 0,
   claim4_theorem.2 _ _
     (VStep.roll (createLocalGame "g" ⟨2, [], []⟩) 5 (by decide) (by decide))
     (by decide) 0 0⟩

/-! ## Claim C7 -/

/-- C7 counterexample: the `pathCoords` table inside `getBoardCoordinates`
has 53 entries, not "exactly 52" as the claim states (the last entry,
`⟨13, 7⟩`, is an extra wrap cell beyond positions 0–51). -/
theorem claim7_counterexample : pathCoords.length ≠ 52 := by decide

/-- C7 (amended): `boardCoordinate` maps each position 0–51 through the
precomputed closed path table — which has exactly 53 entries, the 53rd being
an extra entry unused by main-track positions 0–51 — and the geometry
helpers and the rules engine share the same four fixed player start offsets
0, 13, 26, 39 (each of which is a safe cell) and the same 8 safe cells
0, 8, 13, 21, 26, 34, 39, 47. -/
theorem claim7_theorem :
    pathCoords.length = 53 ∧
    ((List.range 52).all fun p =>
      decide (getBoardCoordinates (p : Int) = pathCoords.getD p ⟨7, 7⟩)) = true ∧
    PLAYER_CONFIGS.map PlayerConfig.startPos = [0, 13, 26, 39] ∧
    ((PLAYER_CONFIGS.map PlayerConfig.startPos).all fun s =>
      decide (s ∈ SAFE_SQUARES)) = true ∧
    SAFE_SQUARES = [0, 8, 13, 21, 26, 34, 39, 47] := by
  refine ⟨by decide, by decide, by decide, by decide, by decide⟩

/-! ## Claim C8 -/

/-- C8 counterexample: two runs of `createGame` with identical config are
not identical — `createLocalGame` embeds the nondeterministically generated
game id (`generateId()` uses `Date.now()` and `Math.random()`), so two runs
that draw different ids return different states. -/
theorem claim8_counterexample :
    createLocalGame "game_1_a" ⟨2, [], []⟩ ≠ createLocalGame "game_2_b" ⟨2, [], []⟩ := by
  decide

/-- C8 (amended): besides the die draw inside `rollDice`, the id generated
inside `createGame` is also nondeterministic; everything else is
deterministic — with the two draws made explicit arguments, all engine
operations are pure functions, and `createGame` with identical config
returns states identical in every field except `id`. -/
theorem claim8_theorem (gid1 gid2 : String) (cfg : CreateConfig) :
    { createLocalGame gid1 cfg with id := "" } =
      { createLocalGame gid2 cfg with id := "" } := by
  rfl

/-! ## Claim C9 -/

/-- C9: every state returned by a successful (non-rejected) `applyMove` has
`diceValue = null`, `diceRolled = false`, `turnPhase = 'roll'`, and
`hasExtraTurn = false` — including when the mover retains the turn and when
the move has just ended the game. -/
theorem claim9_theorem (gs : GameState) (tid : String)
    (hGO : gs.gameOver = false)
    (h : ∃ k t2 cp m0,
      findIndexAux (fun t => t.id == tid) (currentPlayer gs).tokens 0 = some k ∧
      moveOutcome (currentPlayer gs) ((currentPlayer gs).tokens.getD k junkToken)
        gs.diceValue = some (t2, cp, m0)) :
    (moveLocalToken gs tid).diceValue = none ∧
    (moveLocalToken gs tid).diceRolled = false ∧
    (moveLocalToken gs tid).turnPhase = "roll" ∧
    (moveLocalToken gs tid).hasExtraTurn = false := by
  obtain ⟨k, t2, cp, m0, hfind, hout⟩ := h
  rw [moveLocalToken_success gs tid k t2 cp m0 hGO hfind hout]
  simp only [moveSuccessResult]
  split
  · exact ⟨(finishMove_fields ..).2.1, (finishMove_fields ..).2.2.1,
      (finishMove_fields ..).2.2.2.1, (finishMove_fields ..).2.2.2.2.1⟩
  · exact ⟨(finishMove_fields ..).2.1, (finishMove_fields ..).2.2.1,
      (finishMove_fields ..).2.2.2.1, (finishMove_fields ..).2.2.2.2.1⟩

/-- C9 witness: the success hypotheses hold for moving `red_0` out of base
on the opening roll of six, and the conclusion follows from
`claim9_theorem`. -/
theorem claim9_witness :
    ((rollLocalDice (createLocalGame "g" ⟨2, [], []⟩) 6).gameOver = false) ∧
    ((moveLocalToken (rollLocalDice (createLocalGame "g" ⟨2, [], []⟩) 6) "red_0").diceValue = none ∧
     (moveLocalToken (rollLocalDice (createLocalGame "g" ⟨2, [], []⟩) 6) "red_0").diceRolled = false ∧
     (moveLocalToken (rollLocalDice (createLocalGame "g" ⟨2, [], []⟩) 6) "red_0").turnPhase = "roll" ∧
     (moveLocalToken (rollLocalDice (createLocalGame "g" ⟨2, [], []⟩) 6) "red_0").hasExtraTurn = false) :=
  ⟨by decide,
   claim9_theorem (rollLocalDice (createLocalGame "g" ⟨2, [], []⟩) 6) "red_0"
     (by decide)
     ⟨0,
      { currentPlayer (rollLocalDice (createLocalGame "g" ⟨2, [], []⟩) 6)
          |>.tokens.getD 0 junkToken with
          state := .active, position := (0 : Int), stepsFromStart := 0 },
      some 0, "Player 1 moves a token to the starting position.",
      by decide, by decide⟩⟩

end Ludo
